import Mathlib

/-!
Verification of the vasprun.xml parsing core of `pymatgen/io/vaspio.py`
(class `VasprunHandler` together with the typed value decoders
`parse_parameters`, `parse_v_parameters`, `parse_from_incar` and the
`Incar.get_string` encoder).

The shallow embedding below mirrors the Python source line by line:

* Python numbers are modelled exactly: `int` as `Int`; `float` values as
  exact decimals (`Dec` below -- every payload in this format is decimal
  text, and all concrete literals appearing in claims are exactly
  representable, so no rounding questions arise).
* `StringIO` text accumulators become plain `String` concatenation.
* Python exceptions (`ValueError` from `int()` / `float()`, `IndexError`
  from `self.structures[-1]` or `tok[2]`, `AttributeError` from unset
  `self.forces`, numpy reshape failures) are modelled with `Except VErr`:
  decode failures map to `VErr.decodeError` and structural failures
  (missing prerequisite data, bad shapes) to `VErr.structuralError`,
  matching the spec's error taxonomy.  Any raised error aborts the fold
  over the event stream, so no partial result is returned.
* The filesystem read of `parse_from_incar` (an external collaborator) is
  modelled by passing the directory next to the stream's source as an
  association list from file name to parsed INCAR contents.
-/

/-- Python `\s` whitespace class used by `re.split("\\s+", ...)` and
`str.strip()`. -/
def isSpace (c : Char) : Bool :=
  c = ' ' ∨ c = '\t' ∨ c = '\n' ∨ c = '\r' ∨ c = '\x0b' ∨ c = '\x0c'

/-- Python `str.strip()` on a character list. -/
def stripChars (l : List Char) : List Char :=
  ((l.dropWhile isSpace).reverse.dropWhile isSpace).reverse

/-- Python `str.strip()`. -/
def pyStrip (s : String) : String := ⟨stripChars s.toList⟩

mutual

/-- Helper of `splitWsChars`: inside a token, accumulating `cur`
(reversed). -/
def splitWsAux : List Char → List Char → List (List Char)
  | [], cur => [cur.reverse]
  | c :: rest, cur =>
    if isSpace c then cur.reverse :: splitWsSkip rest
    else splitWsAux rest (c :: cur)

/-- Helper of `splitWsChars`: inside a run of separators. -/
def splitWsSkip : List Char → List (List Char)
  | [] => [[]]
  | c :: rest => if isSpace c then splitWsSkip rest else splitWsAux rest [c]

end

/-- Python `re.split("\\s+", s)`: split on maximal whitespace runs.  Like
the regex version this keeps empty pieces at the two ends (`" a"` gives
`["", "a"]`, `""` gives `[""]`) but never in the middle. -/
def splitWsChars (l : List Char) : List (List Char) := splitWsAux l []

/-- `re.split("\\s+", s)` on strings. -/
def splitWs (s : String) : List String := (splitWsChars s.toList).map (⟨·⟩)

/-- Value of a single decimal digit character. -/
def digitVal? (c : Char) : Option Nat :=
  if c = '0' then some 0 else if c = '1' then some 1
  else if c = '2' then some 2 else if c = '3' then some 3
  else if c = '4' then some 4 else if c = '5' then some 5
  else if c = '6' then some 6 else if c = '7' then some 7
  else if c = '8' then some 8 else if c = '9' then some 9 else none

/-- Decimal digit to character (total; digits are always `< 10` here). -/
def digitChar10 : Nat → Char
  | 0 => '0' | 1 => '1' | 2 => '2' | 3 => '3' | 4 => '4'
  | 5 => '5' | 6 => '6' | 7 => '7' | 8 => '8' | 9 => '9' | _ => '?'

deriving instance DecidableEq for Except

/-- Python list-comprehension semantics: map `f` over the list, failing
as a whole as soon as one element fails (the first raised exception
aborts the comprehension). -/
def allSome {α β : Type} (f : α → Option β) : List α → Option (List β)
  | [] => some []
  | a :: l =>
    match f a with
    | none => none
    | some b => (allSome f l).map (b :: ·)

/-- Value of a nonempty all-digit character list, `none` otherwise. -/
def digitsVal? (l : List Char) : Option Nat :=
  match allSome digitVal? l with
  | some ds => if ds.isEmpty then none else some (ds.foldl (fun a d => 10 * a + d) 0)
  | none => none

/-- Sign/digit dispatch of Python `int(s)` after whitespace
stripping. -/
def pyIntChars? : List Char → Option Int
  | [] => none
  | c :: cs =>
    if c = '-' then (digitsVal? cs).map (fun n => -(n : Int))
    else if c = '+' then (digitsVal? cs).map (fun n => (n : Int))
    else (digitsVal? (c :: cs)).map (fun n => (n : Int))

/-- Python `int(s)`: optional surrounding whitespace, optional sign, a
nonempty run of decimal digits.  `none` models the `ValueError`. -/
def pyInt? (s : String) : Option Int := pyIntChars? (stripChars s.toList)

/-- Value of a (possibly empty) digit list, junk digits counting 0. -/
def digitsValue (l : List Char) : Nat :=
  l.foldl (fun a c => 10 * a + ((digitVal? c).getD 0)) 0

/-- An exact decimal number `mant * 10 ^ ex`, the model of a Python
float value (every literal in this format is decimal text, so the exact
decimal it denotes is the faithful value model; all integer operations
involved are kernel-computable).  Kept canonical: the mantissa of a
nonzero value is never divisible by 10, and zero is `⟨0, 0⟩`, so value
equality is representation equality. -/
structure Dec where
  mant : Int
  ex : Int
deriving Repr, DecidableEq

/-- Strip factors of 10 from the mantissa into the exponent (`fuel`
bounds the loop; `|m|` always suffices). -/
def canonAux : Nat → Int → Int → Int × Int
  | 0, m, e => (m, e)
  | fuel + 1, m, e =>
    if m % 10 = 0 ∧ m ≠ 0 then canonAux fuel (m / 10) (e + 1) else (m, e)

/-- Canonical decimal with value `m * 10 ^ e`. -/
def Dec.norm (m e : Int) : Dec :=
  if m = 0 then ⟨0, 0⟩ else
    let p := canonAux m.natAbs m e
    ⟨p.1, p.2⟩

/-- The decimal denoting an integer. -/
def Dec.ofInt (n : Int) : Dec := Dec.norm n 0

instance (n : Nat) : OfNat Dec n := ⟨Dec.ofInt n⟩

/-- Mantissa/exponent core of Python `float(s)` after whitespace
stripping: `[sign] digits [. digits] [(e|E) [sign] digits]`.  (The `inf`
and `nan` spellings never occur in this format and are not modelled.)
`none` models the `ValueError`. -/
def pyFloatCore : List Char → Option Dec
  | l =>
    let (neg, l1) : Bool × List Char :=
      match l with
      | '+' :: r => (false, r)
      | '-' :: r => (true, r)
      | r => (false, r)
    let d1 := l1.takeWhile (fun c => (digitVal? c).isSome)
    let l2 := l1.dropWhile (fun c => (digitVal? c).isSome)
    let (d2, l3) : List Char × List Char :=
      match l2 with
      | '.' :: r => (r.takeWhile (fun c => (digitVal? c).isSome),
                     r.dropWhile (fun c => (digitVal? c).isSome))
      | r => ([], r)
    if d1.isEmpty ∧ d2.isEmpty then none
    else
      let mag : Int := (digitsValue (d1 ++ d2) : Int)
      let mant : Int := if neg then -mag else mag
      match l3 with
      | [] => some (Dec.norm mant (-(d2.length : Int)))
      | 'e' :: r => pyFloatExp mant d2.length r
      | 'E' :: r => pyFloatExp mant d2.length r
      | _ => none
where
  /-- Exponent part `[sign] digits` (must consume the rest). -/
  pyFloatExp (mant : Int) (d2len : Nat) (r : List Char) : Option Dec :=
    let (esgn, r1) : Int × List Char :=
      match r with
      | '+' :: r' => (1, r')
      | '-' :: r' => (-1, r')
      | r' => (1, r')
    let ed := r1.takeWhile (fun c => (digitVal? c).isSome)
    let r2 := r1.dropWhile (fun c => (digitVal? c).isSome)
    if ed.isEmpty ∨ ¬ r2.isEmpty then none
    else some (Dec.norm mant (esgn * (digitsValue ed : Int) - (d2len : Int)))

/-- Python `float(s)`; `none` models the `ValueError`. -/
def pyFloat? (s : String) : Option Dec := pyFloatCore (stripChars s.toList)

/-- Python `str(n)` for a natural number. -/
def natToStr (n : Nat) : String :=
  if n = 0 then "0" else ⟨((Nat.digits 10 n).reverse).map digitChar10⟩

/-- Python `str(n)` for an `int`. -/
def intToStr (n : Int) : String :=
  if n < 0 then "-" ++ natToStr n.natAbs else natToStr n.natAbs

/-- A typed value decoded from a vasprun.xml payload (the value space of
the `Incar` table): bool, int, float, string, or a homogeneous list. -/
inductive PVal
  | b (v : Bool)
  | i (v : Int)
  | f (v : Dec)
  | s (v : String)
  | listB (v : List Bool)
  | listI (v : List Int)
  | listF (v : List Dec)
  | listS (v : List String)
deriving Repr, DecidableEq

/-- Error kinds of the parse (spec section 7): `decodeError` models a
Python `ValueError`/`IOError` from a failed payload decode,
`structuralError` models `IndexError`/`AttributeError`/bad-shape failures
when a section closes without its prerequisite data. -/
inductive VErr
  | structuralError
  | decodeError
deriving Repr, DecidableEq

/-- `parse_parameters(val_type, val)` of vaspio.py:1032-1040, the scalar
typed value decoder:

    def parse_parameters(val_type, val):
        if val_type == "logical":
            return (val == "T")
        elif val_type == "int":
            return int(val)
        elif val_type == "string":
            return val.strip()
        else:
            return float(val)
-/
def parse_parameters (val_type val : String) : Except VErr PVal :=
  if val_type = "logical" then .ok (.b (val = "T"))
  else if val_type = "int" then
    match pyInt? val with
    | some n => .ok (.i n)
    | none => .error .decodeError
  else if val_type = "string" then .ok (.s (pyStrip val))
  else
    match pyFloat? val with
    | some q => .ok (.f q)
    | none => .error .decodeError

/-- `True` when `needle` occurs as a contiguous substring of the list,
modelling Python `re.search("INCAR", f)` for a fixed literal pattern. -/
def containsSub (needle : List Char) : List Char → Bool
  | [] => needle.isEmpty
  | c :: rest => needle.isPrefixOf (c :: rest) || containsSub needle rest

/-- `parse_from_incar(filename, key)` of vaspio.py:1067-1077.  The
directory next to the stream's source is passed explicitly as an
association list from file name to already-parsed INCAR contents (the
`os.listdir`/`Incar.from_file` I/O is the external collaborator).  The
source scans the listing for the first file whose name matches `INCAR`;
if one is found the key is looked up in it and the function returns
(returning `None` when the key is absent, without looking at later
files); with no INCAR-named file at all it returns `None`. -/
def parse_from_incar (dir : List (String × List (String × PVal))) (key : String) :
    Option PVal :=
  match dir with
  | [] => none
  | (fname, contents) :: rest =>
    if containsSub "INCAR".toList fname.toList then
      match contents.find? (fun p => p.1 = key) with
      | some p => some p.2
      | none => none
    else parse_from_incar rest key

/-- `parse_v_parameters(val_type, val, filename, param_name)` of
vaspio.py:1042-1065, the list typed value decoder.  On a numeric token
that fails to parse (the producer bug printing `2****`), the `int` and
default/float branches fall back to `parse_from_incar`; a missing
sidecar value raises `IOError` (modelled `decodeError`). -/
def parse_v_parameters (val_type val : String)
    (dir : List (String × List (String × PVal))) (param_name : String) :
    Except VErr PVal :=
  if val_type = "logical" then
    .ok (.listB ((splitWs val).map (fun i => i = "T")))
  else if val_type = "int" then
    match allSome pyInt? (splitWs val) with
    | some l => .ok (.listI l)
    | none =>
      match parse_from_incar dir param_name with
      | some v => .ok v
      | none => .error .decodeError
  else if val_type = "string" then
    .ok (.listS (splitWs val))
  else
    match allSome pyFloat? (splitWs val) with
    | some l => .ok (.listF l)
    | none =>
      match parse_from_incar dir param_name with
      | some v => .ok v
      | none => .error .decodeError

/-- `Modelled from the spec:` the spec (section 4.2) describes a scalar
decoder that, on numeric decode failure, consults the Fallback Resolver
before deciding whether to raise: "If the resolver returns a value, that
value replaces the entire decoded scalar/list; if it returns nothing,
decoding fails with DecodeError."  No such scalar fallback exists in the
source (`parse_parameters` takes no filename); this definition follows
the spec's words so the code's behaviour can be compared against it. -/
def parse_parameters_fallback_spec (resolve : String → Option PVal)
    (param_name val_type val : String) : Except VErr PVal :=
  if val_type = "logical" then .ok (.b (val = "T"))
  else if val_type = "int" then
    match pyInt? val with
    | some n => .ok (.i n)
    | none =>
      match resolve param_name with
      | some v => .ok v
      | none => .error .decodeError
  else if val_type = "string" then .ok (.s (pyStrip val))
  else
    match pyFloat? val with
    | some q => .ok (.f q)
    | none =>
      match resolve param_name with
      | some v => .ok v
      | none => .error .decodeError

/-- Python `" ".join(l)`. -/
def joinSpace : List String → String
  | [] => ""
  | [x] => x
  | x :: rest => x ++ " " ++ joinSpace rest

/-- Character-level form of `" ".join`. -/
def charsJoin : List (List Char) → List Char
  | [] => []
  | [t] => t
  | t :: rest => t ++ ' ' :: charsJoin rest

/-- The value-to-text encoding used by `Incar.get_string`
(vaspio.py:290-304): a list value becomes `" ".join([str(i) for i in v])`,
a scalar becomes `str(v)` (so `True`/`False` for booleans, the decimal
form for ints, the text itself for strings).  Float printing is Python's
`str` on an IEEE double; only its exact-decimal fragment is modelled
(enough for every claim). -/
def encodeVal : PVal → String
  | .b true => "True"
  | .b false => "False"
  | .i n => intToStr n
  | .f q => intToStr q.mant ++ "e" ++ intToStr q.ex
  | .s s => s
  | .listB l => joinSpace (l.map (fun b => if b then "True" else "False"))
  | .listI l => joinSpace (l.map intToStr)
  | .listF l => joinSpace (l.map (fun q => intToStr q.mant ++ "e" ++ intToStr q.ex))
  | .listS l => joinSpace l

/-- A value of the `self.state` defaultdict: Python stores `True`/`False`
booleans or attribute strings under tag names. -/
inductive SVal
  | b (v : Bool)
  | s (v : String)
deriving Repr, DecidableEq

/-- Python truthiness of a `state` entry (`if self.state['incar']:`):
booleans are themselves, strings are truthy iff nonempty. -/
def SVal.truthy : SVal → Bool
  | .b v => v
  | .s v => ¬ v.toList.isEmpty

/-- Python `==` between a `state` entry and a string literal
(`self.state['varray'] == "forces"`): a boolean never equals a string. -/
def SVal.eqs : SVal → String → Bool
  | .s v, t => v = t
  | .b _, _ => false

/-- Python `str(self.state["set"]).startswith(p)`: `str(True)`/`str(False)`
never start with `"spin"` or `"kpoint"`, so only string entries count. -/
def SVal.startsWith : SVal → String → Bool
  | .s v, p => p.toList.isPrefixOf v.toList
  | .b _, _ => false

/-- One spin channel (`Spin.up` / `Spin.down` of pymatgen). -/
inductive Spin
  | up
  | down
deriving Repr, DecidableEq

/-- `Structure(lattice, species, coords)` as assembled at a
structure-section close (vaspio.py:975): a 3x3 lattice, the element
symbol list, and an Nx3 coordinate matrix. -/
structure Structure' where
  lattice : List (List Dec)
  species : List String
  coords : List (List Dec)
deriving Repr, DecidableEq

/-- One ionic step dict as appended at a calculation-section close
(vaspio.py:964).  Electronic-step dicts are keyed by the `state['i']`
entry (an `SVal`, since Python uses the raw state value as dict key). -/
structure IonicStep where
  electronic_steps : List (List (SVal × Dec))
  structure' : Structure'
  forces : List (List Dec)
  stress : List (List Dec)
deriving Repr, DecidableEq

/-- `Dos(efermi, energies, densities)` (the pymatgen Dos container as
used at vaspio.py:1016-1017; it just stores its three arguments). -/
structure Dos' where
  efermi : Option Dec
  energies : Option (List Dec)
  densities : List (Spin × List Dec)
deriving Repr, DecidableEq

/-- `PDos(efermi, energies, densities, orbital)` (vaspio.py:1011/1013);
`Orbital.from_vasp_index(i)` is modelled by the index `i` itself. -/
structure PDos' where
  efermi : Option Dec
  energies : Option (List Dec)
  densities : List (Spin × List Dec)
  orbital : Nat
deriving Repr, DecidableEq

/-- The `self.tdos` / `self.idos` fields hold a spin-keyed dict during
accumulation and are replaced by a `Dos` object when `total` closes. -/
inductive TdosField
  | dict (m : List (Spin × List Dec))
  | dos (d : Dos')
deriving Repr, DecidableEq

/-- The `self.pdos` field holds an (ion, orbital, spin)-keyed dict during
accumulation and is replaced by a list of per-atom lists of `PDos`
objects when the enclosing `partialDos` section closes. -/
inductive PdosField
  | dict (m : List ((Int × Nat × Spin) × List Dec))
  | done (l : List (List PDos'))
deriving Repr, DecidableEq

/-- Ordered-dict update: replace in place if the key is present,
otherwise append (Python dict semantics, insertion ordered). -/
def updAssoc {α β : Type} [DecidableEq α] (m : List (α × β)) (k : α) (v : β) :
    List (α × β) :=
  if m.any (fun p => p.1 = k) then m.map (fun p => if p.1 = k then (k, v) else p)
  else m ++ [(k, v)]

/-- Dict lookup returning `none` for a missing key. -/
def lookupAssoc {α β : Type} [DecidableEq α] (m : List (α × β)) (k : α) : Option β :=
  (m.find? (fun p => p.1 = k)).map Prod.snd

/-- numpy row chunking: groups of three. -/
def chunk3 : List Dec → Option (List (List Dec))
  | [] => some []
  | a :: b :: c :: rest => (chunk3 rest).map (fun m => [a, b, c] :: m)
  | _ => none

/-- numpy `arr.shape = (n, 3)`: succeeds iff the flat data has exactly
`3 * n` entries, producing `n` rows of 3. -/
def reshapeN3 (l : List Dec) (n : Nat) : Option (List (List Dec)) :=
  if l.length = 3 * n then chunk3 l else none

/-- `[float(x) for x in re.split("\\s+", s)]`: all tokens must parse. -/
def floatList? (s : String) : Option (List Dec) := allSome pyFloat? (splitWs s)

/-- `[row[i] for row in rows]`; `none` models the `IndexError` when a row
is too short. -/
def pdosColumn? (rows : List (List Dec)) (i : Nat) : Option (List Dec) :=
  allSome (fun r => r.get? i) rows

/-- The loop of vaspio.py:999-1000: for `i` in `0 ..< k` (passed as the
remaining count, with `i` the current index) store the `i`-th tail column
of `raw_data` under `(ion, i, spin)`. -/
def pdosStoreAux (ion : Int) (spin : Spin) (rows : List (List Dec)) :
    List ((Int × Nat × Spin) × List Dec) → Nat → Nat →
    Option (List ((Int × Nat × Spin) × List Dec))
  | pm, 0, _ => some pm
  | pm, k + 1, i =>
    match pdosColumn? rows i with
    | some col => pdosStoreAux ion spin rows (updAssoc pm (ion, i, spin) col) k (i + 1)
    | none => none

/-- The inner loop of vaspio.py:1007-1013: build the per-orbital `PDos`
list of one atom (`k` orbitals remaining, `iorb` the current index).  The
up channel must be present (`KeyError` otherwise); the down channel is
included only when present and nonempty (Python `if downdos:`). -/
def buildPdosRow (pm : List ((Int × Nat × Spin) × List Dec)) (efermi : Option Dec)
    (energies : Option (List Dec)) (iatom : Int) :
    Nat → Nat → Option (List PDos')
  | 0, _ => some []
  | k + 1, iorb =>
    match lookupAssoc pm (iatom, iorb, Spin.up) with
    | none => none
    | some updos =>
      let entry : PDos' :=
        match lookupAssoc pm (iatom, iorb, Spin.down) with
        | some d =>
          if ¬ d.isEmpty then ⟨efermi, energies, [(Spin.up, updos), (Spin.down, d)], iorb⟩
          else ⟨efermi, energies, [(Spin.up, updos)], iorb⟩
        | none => ⟨efermi, energies, [(Spin.up, updos)], iorb⟩
      (buildPdosRow pm efermi energies iatom k (iorb + 1)).map (entry :: ·)

/-- The outer loop of vaspio.py:1003-1014: one `PDos` row per atom, atoms
numbered `1 .. natom` (`k` atoms remaining, `iatom` the current index). -/
def buildAllPdos (pm : List ((Int × Nat × Spin) × List Dec)) (efermi : Option Dec)
    (energies : Option (List Dec)) (norb : Nat) :
    Nat → Int → Option (List (List PDos'))
  | 0, _ => some []
  | k + 1, iatom =>
    match buildPdosRow pm efermi energies iatom norb 0 with
    | none => none
    | some row => (buildAllPdos pm efermi energies norb k (iatom + 1)).map (row :: ·)

/-- Python `l[::2]` (indices 0, 2, 4, ...). -/
def everySecond {α : Type} : List α → List α
  | [] => []
  | [a] => [a]
  | a :: _ :: rest => a :: everySecond rest

/-- Python `l[4::5]` (indices 4, 9, 14, ...). -/
def everyFifthFrom4 {α : Type} : List α → List α
  | _ :: _ :: _ :: _ :: a :: rest => a :: everyFifthFrom4 rest
  | _ => []

/-- The full parser state: all fields of `VasprunHandler.__init__`
(vaspio.py:780-816) plus the per-section scratch attributes the source
creates on the fly (`scdata`, `scstep`, `forces`, `stress`, `val`,
`latticestr`, `posstr`, `eigen_spin`, `eigen_kpoint`, `pdos_ion`,
`pdos_spin`, `norbitals`, `param_type`).  Attributes the source assigns
before first use but that Python would not have at start are given inert
defaults (`none` / `[]`); `forces`/`stress` are `Option` because reading
them before assignment is an `AttributeError` the model must surface.
The unused `__init__` flags (`in_efermi`, `read_atoms`) are omitted.
`incar_dir` carries the directory listing used by `parse_from_incar`. -/
structure VState where
  incar_dir : List (String × List (String × PVal))
  vasp_version : Option String
  incar : List (String × PVal)
  parameters : List (String × PVal)
  potcar_symbols : List String
  atomic_symbols : List String
  kpoints_l1_comment : Option String
  kpoints_l2_gen_style : Option String
  kpoints_l3_lattice : Option String
  kpoints_kpts : List Int
  actual_kpoints : List (List Dec)
  actual_kpoints_weights : List Dec
  dos_energies : Option (List Dec)
  eigenvalues : List ((Int × Spin) × List (List Dec))
  tdos : TdosField
  idos : TdosField
  pdos : PdosField
  efermi : Option Dec
  ionic_steps : List IonicStep
  structures : List Structure'
  input_read : Bool
  all_calculations_read : Bool
  read_structure : Bool
  read_calculation : Bool
  read_eigen : Bool
  read_dos : Bool
  incar_param : Option String
  param_type : String
  dos_energies_val : List Dec
  dos_val : List Dec
  idos_val : List Dec
  raw_data : List (List Dec)
  state : String → SVal
  read_val : Bool
  read_lattice : Bool
  read_positions : Bool
  val : String
  latticestr : String
  posstr : String
  scdata : List (List (SVal × Dec))
  scstep : List (SVal × Dec)
  forces : Option (List (List Dec))
  stress : Option (List (List Dec))
  eigen_spin : Spin
  eigen_kpoint : Int
  pdos_ion : Int
  pdos_spin : Spin
  norbitals : Nat

/-- `VasprunHandler.__init__(filename)`: everything empty, every state
flag false (`defaultdict(bool)`). -/
def initialState (dir : List (String × List (String × PVal))) : VState where
  incar_dir := dir
  vasp_version := none
  incar := []
  parameters := []
  potcar_symbols := []
  atomic_symbols := []
  kpoints_l1_comment := none
  kpoints_l2_gen_style := none
  kpoints_l3_lattice := none
  kpoints_kpts := []
  actual_kpoints := []
  actual_kpoints_weights := []
  dos_energies := none
  eigenvalues := []
  tdos := .dict []
  idos := .dict []
  pdos := .dict []
  efermi := none
  ionic_steps := []
  structures := []
  input_read := false
  all_calculations_read := false
  read_structure := false
  read_calculation := false
  read_eigen := false
  read_dos := false
  incar_param := none
  param_type := "float"
  dos_energies_val := []
  dos_val := []
  idos_val := []
  raw_data := []
  state := fun _ => .b false
  read_val := false
  read_lattice := false
  read_positions := false
  val := ""
  latticestr := ""
  posstr := ""
  scdata := []
  scstep := []
  forces := none
  stress := none
  eigen_spin := .up
  eigen_kpoint := 0
  pdos_ion := 0
  pdos_spin := .up
  norbitals := 0

/-- Pointwise update of the `state` mapping. -/
def updState (g : String → SVal) (k : String) (v : SVal) : String → SVal :=
  fun t => if t = k then v else g t

/-- Attribute lookup in a SAX attribute list. -/
def lookupAttr (attrs : List (String × String)) (k : String) : Option String :=
  (attrs.find? (fun p => p.1 = k)).map Prod.snd

/-- The pre-`input_read` part of `startElement` (vaspio.py:828-842),
run after the `state`/`read_val` updates of lines 824-825:

    if (name == "i" or name == "v") and (state['incar'] or state['parameters']):
        incar_param = attributes['name']; param_type = attributes.get('type', 'float'); read_val = True
    elif name == "v" and state['kpoints']: read_val = True
    elif name == "generation" and state['kpoints']: <kpoints header>
    elif name == "c" and state['array'] in ("atoms", "atomtypes"): read_val = True
    elif name == "i" and state['i'] == "version" and state['generator']: read_val = True

The unguarded `attributes['name']` / `attributes['param']` subscripts
raise `KeyError` when absent (modelled `structuralError`). -/
def startInput (st : VState) (name : String) (attrs : List (String × String)) :
    Except VErr VState :=
  if (name = "i" ∨ name = "v") ∧
      ((st.state "incar").truthy ∨ (st.state "parameters").truthy) then
    match lookupAttr attrs "name" with
    | none => .error .structuralError
    | some p =>
      .ok { st with incar_param := some p,
                    param_type := (lookupAttr attrs "type").getD "float",
                    read_val := true }
  else if name = "v" ∧ (st.state "kpoints").truthy then
    .ok { st with read_val := true }
  else if name = "generation" ∧ (st.state "kpoints").truthy then
    match lookupAttr attrs "param" with
    | none => .error .structuralError
    | some p =>
      .ok { st with kpoints_l1_comment := some "K point data read from vasprun.xml",
                    kpoints_l2_gen_style := some "-1",
                    kpoints_l3_lattice := some p }
  else if name = "c" ∧ ((st.state "array").eqs "atoms" ∨ (st.state "array").eqs "atomtypes") then
    .ok { st with read_val := true }
  else if name = "i" ∧ (st.state "i").eqs "version" ∧ (st.state "generator").truthy then
    .ok { st with read_val := true }
  else .ok st

/-- Python `s.split(" ")`: split on each single space, keeping empty
pieces. -/
def splitOnSpaceAux : List Char → List Char → List (List Char)
  | [], cur => [cur.reverse]
  | c :: rest, cur =>
    if c = ' ' then cur.reverse :: splitOnSpaceAux rest []
    else splitOnSpaceAux rest (c :: cur)

/-- Python `s.split(" ")` on strings. -/
def splitOnSpace (s : String) : List String :=
  (splitOnSpaceAux s.toList []).map (⟨·⟩)

/-- Parse `int(comment.split(" ")[1])` (vaspio.py:878/887): missing
second token is an `IndexError`, a non-numeric one a `ValueError`. -/
def commentIndex? (comment : String) : Except VErr Int :=
  match (splitOnSpace comment).get? 1 with
  | none => .error .structuralError
  | some t =>
    match pyInt? t with
    | some k => .ok k
    | none => .error .decodeError

/-- Statement group of vaspio.py:845-849 (`read_calculation`): leaf
reads inside an electronic step or a force/stress array. -/
def startCalcA (st : VState) (name : String) : VState :=
  if st.read_calculation then
    if name = "i" ∧ (st.state "scstep").truthy then { st with read_val := true }
    else if name = "v" ∧ ((st.state "varray").eqs "forces" ∨ (st.state "varray").eqs "stress") then
      { st with read_positions := true }
    else st
  else st

/-- Statement group of vaspio.py:850-854 (`read_structure`): leaf reads
of the lattice basis or the atom positions. -/
def startCalcB (st : VState) (name : String) : VState :=
  if st.read_structure then
    if name = "v" ∧ (st.state "varray").eqs "basis" then { st with read_lattice := true }
    else if name = "v" ∧ (st.state "varray").eqs "positions" then { st with read_positions := true }
    else st
  else st

/-- Statement group of vaspio.py:855-868: section-opening resets. -/
def startCalcC (st : VState) (name : String) : VState :=
  if name = "calculation" then { st with scdata := [], read_calculation := true }
  else if name = "scstep" then { st with scstep := [] }
  else if name = "structure" then
    { st with latticestr := "", posstr := "", read_structure := true }
  else if name = "varray" ∧ ((st.state "varray").eqs "forces" ∨ (st.state "varray").eqs "stress") then
    { st with posstr := "" }
  else if name = "eigenvalues" then { st with all_calculations_read := true }
  else st

/-- Statement group of vaspio.py:869-899: the
`read_eigen` / `read_dos` / `dos` / `eigenvalues` chain (labelled
spin/kpoint/ion `set` headers, leaf-read arming, section resets). -/
def startCalcD (st : VState) (name : String) (attrs : List (String × String)) :
    Except VErr VState :=
  if st.read_eigen then
    if name = "r" ∧ (st.state "set").truthy then .ok { st with read_val := true }
    else if name = "set" then
      match lookupAttr attrs "comment" with
      | some comment =>
        let st := { st with state := updState st.state "set" (.s comment) }
        let st :=
          if "spin".toList.isPrefixOf comment.toList then
            { st with eigen_spin := if (st.state "set").eqs "spin 1" then Spin.up else Spin.down }
          else st
        if "kpoint".toList.isPrefixOf comment.toList then
          match commentIndex? comment with
          | .ok k => .ok { st with eigen_kpoint := k }
          | .error e => .error e
        else .ok st
      | none => .ok st
    else .ok st
  else if st.read_dos then
    if (name = "i" ∧ (st.state "i").eqs "efermi") ∨ (name = "r" ∧ (st.state "set").truthy) then
      .ok { st with read_val := true }
    else if name = "set" then
      match lookupAttr attrs "comment" with
      | some comment =>
        let st := { st with state := updState st.state "set" (.s comment) }
        if (st.state "partial").truthy then
          if "ion".toList.isPrefixOf comment.toList then
            match commentIndex? comment with
            | .ok k => .ok { st with pdos_ion := k }
            | .error e => .error e
          else if "spin".toList.isPrefixOf comment.toList then
            .ok { st with pdos_spin := if (st.state "set").eqs "spin 1" then Spin.up else Spin.down }
          else .ok st
        else .ok st
      | none => .ok st
    else .ok st
  else if name = "dos" then
    .ok { st with dos_energies := none, tdos := .dict [], idos := .dict [],
                  pdos := .dict [], efermi := none, read_dos := true }
  else if name = "eigenvalues" then
    .ok { st with eigenvalues := [], read_eigen := true }
  else .ok st

/-- The post-`input_read` part of `startElement` (vaspio.py:844-899):
the four successive statement groups of the source, in order. -/
def startCalc (st : VState) (name : String) (attrs : List (String × String)) :
    Except VErr VState :=
  startCalcD (startCalcC (startCalcB (startCalcA st name) name) name) name attrs

/-- `VasprunHandler.startElement(name, attributes)` (vaspio.py:822-902):
record the tag in `state` (the `name` attribute's value when present,
`True` otherwise), clear `read_val`, dispatch on the reading phase, and
reset the `val` buffer when a leaf payload is about to be read. -/
def startElement (st : VState) (name : String) (attrs : List (String × String)) :
    Except VErr VState :=
  let st := { st with
    state := updState st.state name
      (match lookupAttr attrs "name" with
       | none => .b true
       | some v => .s v),
    read_val := false }
  let r := if ¬ st.input_read then startInput st name attrs else startCalc st name attrs
  match r with
  | .error e => .error e
  | .ok st' => .ok (if st'.read_val then { st' with val := "" } else st')

/-- `VasprunHandler.characters(data)` (vaspio.py:904-910). -/
def characters (st : VState) (data : String) : VState :=
  let st := if st.read_val then { st with val := st.val ++ data } else st
  if st.read_lattice then { st with latticestr := st.latticestr ++ data }
  else if st.read_positions then { st with posstr := st.posstr ++ data }
  else st

/-- First `if` of the k-points `v`-leaf close (vaspio.py:945-946):
append a k-point row when the enclosing varray is the explicit list. -/
def endKpointsV1 (st : VState) : Except VErr VState :=
  if (st.state "varray").eqs "kpointlist" then
    match floatList? (pyStrip st.val) with
    | some row => .ok { st with actual_kpoints := st.actual_kpoints ++ [row] }
    | none => .error .decodeError
  else .ok st

/-- Second `if` (vaspio.py:947-948): append a k-point weight. -/
def endKpointsV2 (st : VState) : Except VErr VState :=
  if (st.state "varray").eqs "weights" then
    match pyFloat? st.val with
    | some w => .ok { st with actual_kpoints_weights := st.actual_kpoints_weights ++ [w] }
    | none => .error .decodeError
  else .ok st

/-- Third `if` (vaspio.py:949-950): store the mesh divisions. -/
def endKpointsV3 (st : VState) : Except VErr VState :=
  if (st.state "v").eqs "divisions" then
    match allSome pyInt? (splitWs (pyStrip st.val)) with
    | some ks => .ok { st with kpoints_kpts := ks }
    | none => .error .decodeError
  else .ok st

/-- The k-points part of the `v`-leaf close (vaspio.py:944-950): the
three successive `if` statements of the source, in order (an exception
in an earlier one aborts before the later ones run). -/
def endKpointsV (st : VState) : Except VErr VState :=
  match endKpointsV1 st with
  | .error e => .error e
  | .ok st =>
    match endKpointsV2 st with
    | .error e => .error e
    | .ok st => endKpointsV3 st

/-- The pre-`input_read` part of `endElement` (vaspio.py:917-950):
`i` leaves store a decoded scalar into `incar`/`parameters` (or the
version string); the `atoms`/`atomtypes` catalogue `set` closes take
every second / every fifth-from-fourth entry (with the `X` → `Xe`
remap of `EL_MAPPINGS`, vaspio.py:913) and the `atomtypes` close flips
`input_read`; `c` leaves accumulate catalogue entries; `v` leaves store a
decoded list or a k-point row/weight/mesh. -/
def endInput (st : VState) (name : String) : Except VErr VState :=
  if name = "i" then
    if (st.state "incar").truthy then
      match st.incar_param with
      | none => .error .structuralError
      | some p =>
        match parse_parameters st.param_type (pyStrip st.val) with
        | .error e => .error e
        | .ok v => .ok { st with incar := updAssoc st.incar p v, incar_param := none }
    else if (st.state "parameters").truthy then
      match st.incar_param with
      | none => .error .structuralError
      | some p =>
        match parse_parameters st.param_type (pyStrip st.val) with
        | .error e => .error e
        | .ok v => .ok { st with parameters := updAssoc st.parameters p v, incar_param := none }
    else if (st.state "generator").truthy ∧ (st.state "i").eqs "version" then
      .ok { st with vasp_version := some (pyStrip st.val), incar_param := none }
    else .ok { st with incar_param := none }
  else if name = "set" then
    if (st.state "array").eqs "atoms" then
      .ok { st with atomic_symbols :=
        (everySecond st.atomic_symbols).map (fun sym => if sym = "X" then "Xe" else sym) }
    else if (st.state "array").eqs "atomtypes" then
      .ok { st with potcar_symbols := everyFifthFrom4 st.potcar_symbols, input_read := true }
    else .ok st
  else if name = "c" then
    if (st.state "array").eqs "atoms" then
      .ok { st with atomic_symbols := st.atomic_symbols ++ [pyStrip st.val] }
    else if (st.state "array").eqs "atomtypes" then
      .ok { st with potcar_symbols := st.potcar_symbols ++ [pyStrip st.val] }
    else .ok st
  else if name = "v" then
    if (st.state "incar").truthy then
      match st.incar_param with
      | none => .error .structuralError
      | some p =>
        match parse_v_parameters st.param_type (pyStrip st.val) st.incar_dir p with
        | .error e => .error e
        | .ok v => .ok { st with incar := updAssoc st.incar p v, incar_param := none }
    else if (st.state "parameters").truthy then
      match st.incar_param with
      | none => .error .structuralError
      | some p =>
        match parse_v_parameters st.param_type (pyStrip st.val) st.incar_dir p with
        | .error e => .error e
        | .ok v => .ok { st with parameters := updAssoc st.parameters p v, incar_param := none }
    else if (st.state "kpoints").truthy then endKpointsV st
    else .ok st
  else .ok st

/-- The `read_calculation` group of `endElement` (vaspio.py:952-965):
scalar energies into the current `scstep` dict (keyed by the raw
`state['i']` value), `scstep` close appending to `scdata`, force/stress
`varray` closes reshaping the accumulated `posstr` text (to N×3 with
N = `len(atomic_symbols)`, and 3×3 respectively), and the
`calculation` close assembling one `IonicStep` from `scdata`,
`structures[-1]` (an `IndexError` -- the spec's `StructuralError` -- when
no structure was ever appended) and the last force/stress matrices
(`AttributeError` when never assigned). -/
def endCalcPart (st : VState) (name : String) : Except VErr VState :=
  if ¬ st.read_calculation then .ok st
  else if name = "i" ∧ (st.state "scstep").truthy then
    match pyFloat? st.val with
    | some q => .ok { st with scstep := updAssoc st.scstep (st.state "i") q }
    | none => .error .decodeError
  else if name = "scstep" then
    .ok { st with scdata := st.scdata ++ [st.scstep] }
  else if name = "varray" ∧ (st.state "varray").eqs "forces" then
    match floatList? (pyStrip st.posstr) with
    | none => .error .decodeError
    | some flat =>
      match reshapeN3 flat st.atomic_symbols.length with
      | none => .error .structuralError
      | some m => .ok { st with forces := some m }
  else if name = "varray" ∧ (st.state "varray").eqs "stress" then
    match floatList? (pyStrip st.posstr) with
    | none => .error .decodeError
    | some flat =>
      match reshapeN3 flat 3 with
      | none => .error .structuralError
      | some m => .ok { st with stress := some m }
  else if name = "calculation" then
    match st.structures.getLast? with
    | none => .error .structuralError
    | some s =>
      match st.forces with
      | none => .error .structuralError
      | some f =>
        match st.stress with
        | none => .error .structuralError
        | some sg =>
          .ok { st with
            ionic_steps := st.ionic_steps ++ [⟨st.scdata, s, f, sg⟩],
            read_calculation := false }
  else .ok st

/-- The `read_structure` branch of the `endElement` chain
(vaspio.py:966-976): `v` leaves lower the lattice/position read flags;
the `structure` close reshapes the accumulated lattice text into a 3x3
matrix and the position text into an Nx3 matrix (N the atom-catalogue
length) and appends the snapshot. -/
def endRestStructure (st : VState) (name : String) : Except VErr VState :=
  if name = "v" then .ok { st with read_positions := false, read_lattice := false }
  else if name = "structure" then
    match floatList? (pyStrip st.latticestr) with
    | none => .error .decodeError
    | some latflat =>
      match reshapeN3 latflat 3 with
      | none => .error .structuralError
      | some lat =>
        match floatList? (pyStrip st.posstr) with
        | none => .error .decodeError
        | some posflat =>
          match reshapeN3 posflat st.atomic_symbols.length with
          | none => .error .structuralError
          | some pos =>
            .ok { st with
              structures := st.structures ++ [⟨lat, st.atomic_symbols, pos⟩],
              read_structure := false }
  else .ok st

/-- The `read_dos` branch of the `endElement` chain (vaspio.py:977-1021).
The total-DOS spin-set close is vaspio.py:988-995, transcribed
exactly -- including line 991, which stores `self.dos_val` (not
`self.idos_val`) under the spin key of `self.idos`. -/
def endRestDos (st : VState) (name : String) : Except VErr VState :=
  if name = "i" ∧ (st.state "i").eqs "efermi" then
    match pyFloat? (pyStrip st.val) with
    | some q => .ok { st with efermi := some q }
    | none => .error .decodeError
  else if name = "r" ∧ (st.state "total").truthy ∧ (st.state "set").startsWith "spin" then
    let tok := splitWs (pyStrip st.val)
    match tok.get? 0, tok.get? 1, tok.get? 2 with
    | some t0, some t1, some t2 =>
      match pyFloat? t0, pyFloat? t1, pyFloat? t2 with
      | some e, some d, some i =>
        .ok { st with dos_energies_val := st.dos_energies_val ++ [e],
                      dos_val := st.dos_val ++ [d],
                      idos_val := st.idos_val ++ [i] }
      | _, _, _ => .error .decodeError
    | _, _, _ => .error .structuralError
  else if name = "r" ∧ (st.state "partial").truthy ∧ (st.state "set").startsWith "spin" then
    let tok := splitWs (pyStrip st.val)
    match allSome pyFloat? (tok.drop 1) with
    | some row => .ok { st with raw_data := st.raw_data ++ [row] }
    | none => .error .decodeError
  else if name = "set" ∧ (st.state "total").truthy ∧ (st.state "set").startsWith "spin" then
    let spin := if (st.state "set").eqs "spin 1" then Spin.up else Spin.down
    match st.tdos, st.idos with
    | .dict tm, .dict im =>
      .ok { st with
        tdos := .dict (updAssoc tm spin st.dos_val),
        idos := .dict (updAssoc im spin st.dos_val),
        dos_energies := some st.dos_energies_val,
        dos_energies_val := [], dos_val := [], idos_val := [] }
    | _, _ => .error .structuralError
  else if name = "set" ∧ (st.state "partial").truthy ∧ (st.state "set").startsWith "spin" then
    let spin := if (st.state "set").eqs "spin 1" then Spin.up else Spin.down
    match st.raw_data.head? with
    | none => .error .structuralError
    | some r0 =>
      match st.pdos with
      | .dict pm =>
        match pdosStoreAux st.pdos_ion spin st.raw_data pm r0.length 0 with
        | some pm' =>
          .ok { st with norbitals := r0.length, pdos := .dict pm', raw_data := [] }
        | none => .error .structuralError
      | .done _ => .error .structuralError
  else if name = "partial" then
    match st.pdos with
    | .dict pm =>
      match buildAllPdos pm st.efermi st.dos_energies st.norbitals
          st.atomic_symbols.length 1 with
      | some all => .ok { st with pdos := .done all }
      | none => .error .structuralError
    | .done _ => .error .structuralError
  else if name = "total" then
    match st.tdos, st.idos with
    | .dict tm, .dict im =>
      .ok { st with tdos := .dos ⟨st.efermi, st.dos_energies, tm⟩,
                    idos := .dos ⟨st.efermi, st.dos_energies, im⟩ }
    | _, _ => .error .structuralError
  else if name = "dos" then .ok { st with read_dos := false }
  else .ok st

/-- The `read_eigen` branch of the `endElement` chain
(vaspio.py:1022-1028). -/
def endRestEigen (st : VState) (name : String) : Except VErr VState :=
  if name = "r" ∧ (st.state "set").startsWith "kpoint" then
    match floatList? (pyStrip st.val) with
    | some row => .ok { st with raw_data := st.raw_data ++ [row] }
    | none => .error .decodeError
  else if name = "set" ∧ (st.state "set").startsWith "kpoint" then
    .ok { st with
      eigenvalues := updAssoc st.eigenvalues (st.eigen_kpoint, st.eigen_spin) st.raw_data,
      raw_data := [] }
  else if name = "eigenvalues" then .ok { st with read_eigen := false }
  else .ok st

/-- The `read_structure` / `read_dos` / `read_eigen` chain of
`endElement` (vaspio.py:966-1028): the three reading phases in the
order the source tests them. -/
def endRestPart (st : VState) (name : String) : Except VErr VState :=
  if st.read_structure then endRestStructure st name
  else if st.read_dos then endRestDos st name
  else if st.read_eigen then endRestEigen st name
  else .ok st

/-- `VasprunHandler.endElement(name)` (vaspio.py:915-1030): dispatch on
the reading phase, then clear the tag's `state` entry (line 1030). -/
def endElement (st : VState) (name : String) : Except VErr VState :=
  let r :=
    if ¬ st.input_read then endInput st name
    else
      match endCalcPart st name with
      | .error e => .error e
      | .ok st' => endRestPart st' name
  match r with
  | .error e => .error e
  | .ok st' => .ok { st' with state := updState st'.state name (.b false) }

/-- One SAX event: element start (with attributes), text, element end. -/
inductive XEvent
  | start (name : String) (attrs : List (String × String))
  | text (data : String)
  | endE (name : String)
deriving Repr, DecidableEq

/-- Dispatch one event to the handler. -/
def stepEvent (st : VState) : XEvent → Except VErr VState
  | .start n a => startElement st n a
  | .text d => .ok (characters st d)
  | .endE n => endElement st n

/-- Fold the handler over an event list from a given state; the first
raised error aborts the parse (no partial result). -/
def runEventsFrom (st : VState) : List XEvent → Except VErr VState
  | [] => .ok st
  | e :: rest =>
    match stepEvent st e with
    | .ok st' => runEventsFrom st' rest
    | .error err => .error err

/-- Parse an event stream from the initial handler state, `dir` being the
directory listing next to the stream's source (for the sidecar
fallback). -/
def runEvents (dir : List (String × List (String × PVal))) (es : List XEvent) :
    Except VErr VState :=
  runEventsFrom (initialState dir) es

/-- Number of `element-end(tag)` events in a stream (used to count how
many calculation sections close during a parse). -/
def countEnds (tag : String) (es : List XEvent) : Nat :=
  (es.filter (fun e => match e with | .endE n => n = tag | _ => false)).length

/-- Input preamble of the synthetic well-formed streams: a species
catalogue (`array name="atoms"`) listing 1 Fe + 1 O with each symbol
doubled per the producer convention, followed by the `atomtypes`
catalogue whose `set` close flips `input_read`. -/
def vaspPreamble : List XEvent := [
  .start "array" [("name", "atoms")],
  .start "set" [],
  .start "c" [], .text "Fe", .endE "c",
  .start "c" [], .text "Fe", .endE "c",
  .start "c" [], .text "O", .endE "c",
  .start "c" [], .text "O", .endE "c",
  .endE "set",
  .endE "array",
  .start "array" [("name", "atomtypes")],
  .start "set" [], .endE "set",
  .endE "array" ]

/-- One well-formed calculation section for the synthetic streams: one
structure (2 atoms, identity lattice), one electronic step
(`e_wo_entrp = -10.5`), a 2x3 zero force matrix and a 3x3 identity
stress matrix. -/
def vaspCalcBlock : List XEvent := [
  .start "calculation" [],
  .start "structure" [],
  .start "varray" [("name", "basis")],
  .start "v" [], .text "1.0 0.0 0.0\n", .endE "v",
  .start "v" [], .text "0.0 1.0 0.0\n", .endE "v",
  .start "v" [], .text "0.0 0.0 1.0\n", .endE "v",
  .endE "varray",
  .start "varray" [("name", "positions")],
  .start "v" [], .text "0.0 0.0 0.0\n", .endE "v",
  .start "v" [], .text "0.5 0.5 0.5\n", .endE "v",
  .endE "varray",
  .endE "structure",
  .start "scstep" [],
  .start "i" [("name", "e_wo_entrp")], .text "-10.5", .endE "i",
  .endE "scstep",
  .start "varray" [("name", "forces")],
  .start "v" [], .text "0.0 0.0 0.0\n", .endE "v",
  .start "v" [], .text "0.0 0.0 0.0\n", .endE "v",
  .endE "varray",
  .start "varray" [("name", "stress")],
  .start "v" [], .text "1.0 0.0 0.0\n", .endE "v",
  .start "v" [], .text "0.0 1.0 0.0\n", .endE "v",
  .start "v" [], .text "0.0 0.0 1.0\n", .endE "v",
  .endE "varray",
  .endE "calculation" ]

/-- `n` consecutive well-formed calculation sections. -/
def calcBlocks : Nat → List XEvent
  | 0 => []
  | n + 1 => vaspCalcBlock ++ calcBlocks n

/-- The synthetic well-formed stream with `n` calculation sections:
species catalogue first, then `n` calculation sections, each containing
exactly one structure section (structure sections occur nowhere else). -/
def mkStream (n : Nat) : List XEvent := vaspPreamble ++ calcBlocks n

/-- The structure snapshot produced by each `vaspCalcBlock`. -/
def blockStructure : Structure' :=
  ⟨[[Dec.norm 1 0, Dec.norm 0 0, Dec.norm 0 0],
    [Dec.norm 0 0, Dec.norm 1 0, Dec.norm 0 0],
    [Dec.norm 0 0, Dec.norm 0 0, Dec.norm 1 0]],
   ["Fe", "O"],
   [[Dec.norm 0 0, Dec.norm 0 0, Dec.norm 0 0],
    [Dec.norm 5 (-1), Dec.norm 5 (-1), Dec.norm 5 (-1)]]⟩

/-- The ionic step produced by each `vaspCalcBlock`. -/
def blockIonicStep : IonicStep :=
  ⟨[[(SVal.s "e_wo_entrp", Dec.norm (-105) (-1))]],
   blockStructure,
   [[Dec.norm 0 0, Dec.norm 0 0, Dec.norm 0 0],
    [Dec.norm 0 0, Dec.norm 0 0, Dec.norm 0 0]],
   [[Dec.norm 1 0, Dec.norm 0 0, Dec.norm 0 0],
    [Dec.norm 0 0, Dec.norm 1 0, Dec.norm 0 0],
    [Dec.norm 0 0, Dec.norm 0 0, Dec.norm 1 0]]⟩

/-- A calculation section that closes with a structure and force/stress
matrices collected but not a single electronic step (`scstep`). -/
def calcBlockNoScstep : List XEvent := [
  .start "calculation" [],
  .start "structure" [],
  .start "varray" [("name", "basis")],
  .start "v" [], .text "1.0 0.0 0.0\n", .endE "v",
  .start "v" [], .text "0.0 1.0 0.0\n", .endE "v",
  .start "v" [], .text "0.0 0.0 1.0\n", .endE "v",
  .endE "varray",
  .start "varray" [("name", "positions")],
  .start "v" [], .text "0.0 0.0 0.0\n", .endE "v",
  .start "v" [], .text "0.5 0.5 0.5\n", .endE "v",
  .endE "varray",
  .endE "structure",
  .start "varray" [("name", "forces")],
  .start "v" [], .text "0.0 0.0 0.0\n", .endE "v",
  .start "v" [], .text "0.0 0.0 0.0\n", .endE "v",
  .endE "varray",
  .start "varray" [("name", "stress")],
  .start "v" [], .text "1.0 0.0 0.0\n", .endE "v",
  .start "v" [], .text "0.0 1.0 0.0\n", .endE "v",
  .start "v" [], .text "0.0 0.0 1.0\n", .endE "v",
  .endE "varray",
  .endE "calculation" ]

/-- Stream whose only calculation section closes with no electronic-step
data collected (but with a structure and force/stress data). -/
def c8Events : List XEvent := vaspPreamble ++ calcBlockNoScstep

/-- DOS stream with a single total-DOS spin set whose single row is
`0.0 1.0 2.0` (energy 0.0, total 1.0, integrated 2.0). -/
def c1Events : List XEvent := vaspPreamble ++ [
  .start "dos" [],
  .start "total" [],
  .start "array" [],
  .start "set" [],
  .start "set" [("comment", "spin 1")],
  .start "r" [], .text "0.0 1.0 2.0", .endE "r",
  .endE "set",
  .endE "set",
  .endE "array",
  .endE "total",
  .endE "dos" ]

/-- DOS stream with two total-DOS spin sets carrying different energy
columns (`[0.0]` for the first spin closed, `[5.0]` for the second),
followed by a projected-DOS section; the preamble leaves 2 atoms, so the
section provides `ion 1` and `ion 2` entries. -/
def c10Events : List XEvent := vaspPreamble ++ [
  .start "dos" [],
  .start "total" [],
  .start "array" [],
  .start "set" [],
  .start "set" [("comment", "spin 1")],
  .start "r" [], .text "0.0 1.0 2.0", .endE "r",
  .endE "set",
  .start "set" [("comment", "spin 2")],
  .start "r" [], .text "5.0 1.0 2.0", .endE "r",
  .endE "set",
  .endE "set",
  .endE "array",
  .endE "total",
  .start "partial" [],
  .start "array" [],
  .start "set" [],
  .start "set" [("comment", "ion 1")],
  .start "set" [("comment", "spin 1")],
  .start "r" [], .text "9.0 7.0", .endE "r",
  .endE "set",
  .endE "set",
  .start "set" [("comment", "ion 2")],
  .start "set" [("comment", "spin 1")],
  .start "r" [], .text "9.0 8.0", .endE "r",
  .endE "set",
  .endE "set",
  .endE "set",
  .endE "array",
  .endE "partial",
  .endE "dos" ]

/-- The shape invariant of one ionic step: the force matrix has exactly
one row of three entries per atom of the owning structure snapshot. -/
def GoodStep (s : IonicStep) : Prop :=
  s.forces.length = s.structure'.species.length ∧ ∀ r ∈ s.forces, r.length = 3

/-- Inductive invariant of the handler state: every recorded structure's
species list is the current atom catalogue, a reshaped force matrix
always matches the catalogue in shape, every recorded ionic step is
well-shaped, and before `input_read` no calculation data exists at
all. -/
def HandlerInv (st : VState) : Prop :=
  (∀ s ∈ st.structures, s.species = st.atomic_symbols) ∧
  (∀ m, st.forces = some m → (m.length = st.atomic_symbols.length ∧ ∀ r ∈ m, r.length = 3)) ∧
  (∀ p ∈ st.ionic_steps, GoodStep p) ∧
  (st.input_read = false → (st.structures = [] ∧ st.ionic_steps = [] ∧ st.forces = none))

/-- Readiness between calculation sections of the synthetic streams: the
input phase is over with species `["Fe", "O"]`, no section is being
read, and every context flag is lowered. -/
def Ready (st : VState) : Prop :=
  st.input_read = true ∧ st.read_calculation = false ∧ st.read_structure = false ∧
  st.read_dos = false ∧ st.read_eigen = false ∧
  st.atomic_symbols = ["Fe", "O"] ∧ (∀ t, st.state t = .b false)

/-- Handler state used to exercise the species-catalogue close: the
`atoms` array context is active and the raw doubled entries (with the
mislabeled `X`) have been accumulated. -/
def atomsStX : VState :=
  { initialState [] with
    atomic_symbols := ["X", "X", "O", "O"],
    state := updState (fun _ => .b false) "array" (.s "atoms") }

/-- As `atomsStX`, with raw entries `Fe, Fe, O, O`. -/
def atomsStFeO : VState :=
  { initialState [] with
    atomic_symbols := ["Fe", "Fe", "O", "O"],
    state := updState (fun _ => .b false) "array" (.s "atoms") }

/-- As `atomsStX`, with raw entries `Fe, Fe, O, O, O, O`. -/
def atomsStFeO3 : VState :=
  { initialState [] with
    atomic_symbols := ["Fe", "Fe", "O", "O", "O", "O"],
    state := updState (fun _ => .b false) "array" (.s "atoms") }

/-- A calculation context with no structure accumulated yet. -/
def calcStEmpty : VState :=
  { initialState [] with input_read := true, read_calculation := true }

/-- A calculation context with a structure and force/stress matrices
collected but an empty electronic-step list. -/
def calcStNoConv : VState :=
  { initialState [] with
    input_read := true, read_calculation := true,
    structures := [blockStructure],
    forces := some [[0, 0, 0], [0, 0, 0]],
    stress := some [[1, 0, 0], [0, 1, 0], [0, 0, 1]] }

/-- A DOS context in which a total-DOS spin set (`spin 2`) is about to
close: a previous grid `[99]` is already stored and the columns of the
closing spin are `[5]` / `[1]` / `[2]`. -/
def dosStSpinClose : VState :=
  { initialState [] with
    input_read := true, read_dos := true,
    state := updState (updState (fun _ => .b false) "total" (.b true)) "set" (.s "spin 2"),
    dos_energies := some [99],
    dos_energies_val := [5], dos_val := [1], idos_val := [2] }

/-- A DOS context in which the `total` section is about to close. -/
def dosStTotalClose : VState :=
  { initialState [] with
    input_read := true, read_dos := true,
    dos_energies := some [5],
    tdos := .dict [(Spin.up, [1])], idos := .dict [(Spin.up, [1])] }

/-- A DOS context in which the projected-DOS section is about to close
(one atom, one orbital, up channel only). -/
def dosStPdosClose : VState :=
  { initialState [] with
    input_read := true, read_dos := true,
    atomic_symbols := ["Fe"], norbitals := 1,
    pdos := .dict [((1, 0, Spin.up), [7])],
    dos_energies := some [5] }

/-- All events of `vaspCalcBlock` except the final `calculation` close
(the close inspects the accumulated structure list; no earlier event of
the section does). -/
def blockPre : List XEvent := [
  .start "calculation" [],
  .start "structure" [],
  .start "varray" [("name", "basis")],
  .start "v" [], .text "1.0 0.0 0.0\n", .endE "v",
  .start "v" [], .text "0.0 1.0 0.0\n", .endE "v",
  .start "v" [], .text "0.0 0.0 1.0\n", .endE "v",
  .endE "varray",
  .start "varray" [("name", "positions")],
  .start "v" [], .text "0.0 0.0 0.0\n", .endE "v",
  .start "v" [], .text "0.5 0.5 0.5\n", .endE "v",
  .endE "varray",
  .endE "structure",
  .start "scstep" [],
  .start "i" [("name", "e_wo_entrp")], .text "-10.5", .endE "i",
  .endE "scstep",
  .start "varray" [("name", "forces")],
  .start "v" [], .text "0.0 0.0 0.0\n", .endE "v",
  .start "v" [], .text "0.0 0.0 0.0\n", .endE "v",
  .endE "varray",
  .start "varray" [("name", "stress")],
  .start "v" [], .text "1.0 0.0 0.0\n", .endE "v",
  .start "v" [], .text "0.0 1.0 0.0\n", .endE "v",
  .start "v" [], .text "0.0 0.0 1.0\n", .endE "v",
  .endE "varray" ]

/-- A handler state at a calculation-section boundary of the synthetic
streams: the input phase is over with the two-atom catalogue, no
section is being read, and the `state` mapping is `σ`; every other
field is carried from `st`. -/
def blockEntry (st : VState) (σ : String → SVal) : VState :=
  { st with input_read := true, read_calculation := false, read_structure := false,
            read_dos := false, read_eigen := false, atomic_symbols := ["Fe", "O"],
            state := σ }

/-- Fold a list of pointwise updates over a `state` mapping. -/
def updStates (σ : String → SVal) : List (String × SVal) → String → SVal
  | [] => σ
  | (k, v) :: rest => updStates (updState σ k v) rest

/-- The `state`-mapping updates performed while the handler consumes
`blockPre`: one per element start (tag to its `name` attribute or
`True`) and one per element end (tag to `False`). -/
def blockTrace : List (String × SVal) := [
  ("calculation", .b true), ("structure", .b true), ("varray", .s "basis"),
  ("v", .b true), ("v", .b false), ("v", .b true), ("v", .b false),
  ("v", .b true), ("v", .b false),
  ("varray", .b false), ("varray", .s "positions"),
  ("v", .b true), ("v", .b false), ("v", .b true), ("v", .b false),
  ("varray", .b false), ("structure", .b false),
  ("scstep", .b true), ("i", .s "e_wo_entrp"), ("i", .b false), ("scstep", .b false),
  ("varray", .s "forces"), ("v", .b true), ("v", .b false), ("v", .b true), ("v", .b false),
  ("varray", .b false), ("varray", .s "stress"),
  ("v", .b true), ("v", .b false), ("v", .b true), ("v", .b false),
  ("v", .b true), ("v", .b false),
  ("varray", .b false) ]

/-- The handler state after consuming `blockPre` from
`blockEntry st σ`: the structure snapshot is appended, the electronic
step and the force/stress matrices are accumulated, and the
`calculation` close is still pending. -/
def blockMid (st : VState) (σ : String → SVal) : VState :=
  { st with
    atomic_symbols := ["Fe", "O"],
    input_read := true,
    read_structure := false,
    read_calculation := true,
    read_eigen := false,
    read_dos := false,
    structures := st.structures ++ [blockStructure],
    state := updStates σ blockTrace,
    read_val := false,
    read_lattice := false,
    read_positions := true,
    val := "-10.5",
    latticestr := "1.0 0.0 0.0\n0.0 1.0 0.0\n0.0 0.0 1.0\n",
    posstr := "1.0 0.0 0.0\n0.0 1.0 0.0\n0.0 0.0 1.0\n",
    scdata := [[(SVal.s "e_wo_entrp", Dec.norm (-105) (-1))]],
    scstep := [(SVal.s "e_wo_entrp", Dec.norm (-105) (-1))],
    forces := some [[Dec.norm 0 0, Dec.norm 0 0, Dec.norm 0 0],
                    [Dec.norm 0 0, Dec.norm 0 0, Dec.norm 0 0]],
    stress := some [[Dec.norm 1 0, Dec.norm 0 0, Dec.norm 0 0],
                    [Dec.norm 0 0, Dec.norm 1 0, Dec.norm 0 0],
                    [Dec.norm 0 0, Dec.norm 0 0, Dec.norm 1 0]] }

/-- The handler state after the whole of `vaspCalcBlock`: `blockMid`
plus the `calculation` close (one IonicStep appended, the section flag
lowered, the tag's `state` entry cleared). -/
def blockExit (st : VState) (σ : String → SVal) : VState :=
  { blockMid st σ with
    ionic_steps := st.ionic_steps ++ [blockIonicStep],
    read_calculation := false,
    state := updState (updStates σ blockTrace) "calculation" (.b false) }

/-- The `state`-mapping updates performed while the handler consumes
`vaspPreamble`. -/
def preTrace : List (String × SVal) := [
  ("array", .s "atoms"), ("set", .b true),
  ("c", .b true), ("c", .b false), ("c", .b true), ("c", .b false),
  ("c", .b true), ("c", .b false), ("c", .b true), ("c", .b false),
  ("set", .b false), ("array", .b false),
  ("array", .s "atomtypes"), ("set", .b true), ("set", .b false), ("array", .b false) ]

/-- The handler state after `vaspPreamble`: the input phase is over,
the catalogue holds the two deduplicated symbols, and the last `c`
leaf's text is still in the `val` buffer. -/
def preState : VState :=
  { initialState [] with
    atomic_symbols := ["Fe", "O"],
    input_read := true,
    state := updStates (fun _ => SVal.b false) preTrace,
    val := "O" }

/-- A comprehension fails as soon as any element fails. -/
theorem allSome_none_of_mem {α β : Type} (f : α → Option β) :
    ∀ (l : List α) (t : α), t ∈ l → f t = none → allSome f l = none := by
  intro l
  induction l with
  | nil => intro t ht; cases ht
  | cons a l ih =>
    intro t ht hnone
    cases ht with
    | head => simp [allSome, hnone]
    | tail _ hmem =>
      cases hfa : f a
      · simp [allSome, hfa]
      · simp [allSome, hfa, ih t hmem hnone]

/-- C4 (amended): for a scalar payload of declared type `logical` the
decoder returns `True` exactly when the raw text equals `"T"` and
`False` for any other text; it never fails.  (The source compares
`val == "T"` only -- no case-insensitive "t"/"f" handling and no
`DecodeError` path.) -/
theorem C4_amended (val : String) :
    parse_parameters "logical" val = .ok (.b (val = "T")) := rfl

/-- C4 counterexample: the claim says `"t"` decodes to `True`
(case-insensitive marker) and a text matching neither marker fails with
a `DecodeError`; the code returns `False` in both cases. -/
theorem C4_counterexample :
    parse_parameters "logical" "t" = .ok (.b false) ∧
    parse_parameters "logical" "junk" = .ok (.b false) := by decide

/-- C3 (amended): for a scalar parameter of numeric declared type
(`int`, or the default/float type) whose raw text fails numeric
parsing, the decoder fails immediately with a `DecodeError`; the
Fallback Resolver is never consulted (only the list decoder
`parse_v_parameters` consults it). -/
theorem C3_amended :
    (∀ s, pyInt? s = none → parse_parameters "int" s = .error .decodeError) ∧
    (∀ vt s, vt ≠ "logical" → vt ≠ "int" → vt ≠ "string" → pyFloat? s = none →
      parse_parameters vt s = .error .decodeError) := by
  constructor
  · intro s h
    simp [parse_parameters, h]
  · intro vt s h1 h2 h3 h
    simp [parse_parameters, h1, h2, h3, h]

/-- Witness for C3 (amended) at the producer-bug token `2****`. -/
theorem C3_witness :
    pyInt? "2****" = none ∧ parse_parameters "int" "2****" = .error .decodeError ∧
    pyFloat? "0.2****" = none ∧ parse_parameters "float" "0.2****" = .error .decodeError :=
  ⟨by decide, C3_amended.1 "2****" (by decide), by decide,
   C3_amended.2 "float" "0.2****" (by decide) (by decide) (by decide) (by decide)⟩

/-- C3 counterexample: at declared type `int` and raw text `2****`
(the fixed-width overflow marker), the code's scalar decoder fails
immediately with a `DecodeError`, while the spec-modelled scalar decoder
that consults the Fallback Resolver (here: a resolver holding the value
`2`) succeeds -- so the scalar decoder does not invoke the resolver
before deciding to raise. -/
theorem C3_counterexample :
    parse_parameters "int" "2****" = .error .decodeError ∧
    parse_parameters_fallback_spec (fun _ => some (.i 2)) "LDAUL" "int" "2****" = .ok (.i 2) := by
  decide

/-- C2: for a list-valued parameter whose declared type is numeric
(`int`, or anything other than `logical`/`int`/`string`, i.e. the
default float type) and whose raw text contains a token failing numeric
parsing: if the INCAR sidecar next to the stream's source defines the
parameter's name, decoding succeeds and the sidecar's value replaces
the entire decoded list; with no sidecar value, decoding fails with a
`DecodeError` (the `IOError` of vaspio.py:1053/1064). -/
theorem C2_list_fallback (val name : String) (dir : List (String × List (String × PVal))) :
    ((∃ t ∈ splitWs val, pyInt? t = none) →
      ((∀ v, parse_from_incar dir name = some v →
          parse_v_parameters "int" val dir name = .ok v) ∧
       (parse_from_incar dir name = none →
          parse_v_parameters "int" val dir name = .error .decodeError))) ∧
    (∀ vt, vt ≠ "logical" → vt ≠ "int" → vt ≠ "string" →
      (∃ t ∈ splitWs val, pyFloat? t = none) →
      ((∀ v, parse_from_incar dir name = some v →
          parse_v_parameters vt val dir name = .ok v) ∧
       (parse_from_incar dir name = none →
          parse_v_parameters vt val dir name = .error .decodeError))) := by
  constructor
  · rintro ⟨t, ht, hnone⟩
    have hm : allSome pyInt? (splitWs val) = none := allSome_none_of_mem _ _ _ ht hnone
    exact ⟨fun v hv => by simp [parse_v_parameters, hm, hv],
           fun hv => by simp [parse_v_parameters, hm, hv]⟩
  · rintro vt h1 h2 h3 ⟨t, ht, hnone⟩
    have hm : allSome pyFloat? (splitWs val) = none := allSome_none_of_mem _ _ _ ht hnone
    exact ⟨fun v hv => by simp [parse_v_parameters, h1, h2, h3, hm, hv],
           fun hv => by simp [parse_v_parameters, h1, h2, h3, hm, hv]⟩

/-- Witness for C2 at the producer-bug payload `2 2****`, once with an
INCAR sidecar defining `LDAUL` and once with an empty directory. -/
theorem C2_witness :
    parse_v_parameters "int" "2 2****" [("INCAR", [("LDAUL", PVal.listI [2, 2])])] "LDAUL" =
      .ok (.listI [2, 2]) ∧
    parse_v_parameters "float" "2.0 2****" [] "MAGMOM" = .error .decodeError :=
  ⟨((C2_list_fallback "2 2****" "LDAUL" [("INCAR", [("LDAUL", PVal.listI [2, 2])])]).1
      (by decide)).1 _ (by decide),
   ((C2_list_fallback "2.0 2****" "MAGMOM" []).2 "float" (by decide) (by decide) (by decide)
      (by decide)).2 (by decide)⟩

/-- C5: when the species-catalogue (`atoms`) set closes, the stored
symbol list is every second raw entry (indices 0, 2, 4, ...) with the
mislabeled `X` remapped to `Xe`. -/
theorem C5_atoms_set_close (st : VState) (h1 : st.input_read = false)
    (h2 : st.state "array" = .s "atoms") :
    ((endElement st "set").toOption.map VState.atomic_symbols) =
      some ((everySecond st.atomic_symbols).map (fun sym => if sym = "X" then "Xe" else sym)) := by
  simp [endElement, endInput, h1, h2, SVal.eqs]
  exact ⟨_, rfl, rfl⟩

/-- Witness for C5: raw entries `X, X, O, O` give `[Xe, O]`;
`Fe, Fe, O, O` give `[Fe, O]`; `Fe, Fe, O, O, O, O` give
`[Fe, O, O]`. -/
theorem C5_witness :
    ((endElement atomsStX "set").toOption.map VState.atomic_symbols) = some ["Xe", "O"] ∧
    ((endElement atomsStFeO "set").toOption.map VState.atomic_symbols) = some ["Fe", "O"] ∧
    ((endElement atomsStFeO3 "set").toOption.map VState.atomic_symbols) = some ["Fe", "O", "O"] :=
  ⟨(C5_atoms_set_close atomsStX rfl (by decide)).trans (by decide),
   (C5_atoms_set_close atomsStFeO rfl (by decide)).trans (by decide),
   (C5_atoms_set_close atomsStFeO3 rfl (by decide)).trans (by decide)⟩

/-- C1 (code bug): on the stream whose single total-DOS spin set has
the row `0.0 1.0 2.0` (energy, total, integrated), the handler stores
`[1.0]` -- the second (total) column -- both as the total-DOS vector and
as the integrated-DOS vector: vaspio.py:991 reads
`self.idos[spin] = self.dos_val` while the third column accumulated
into `self.idos_val` (line 984) is discarded, contradicting the class
documentation `idos - Integrated dos` (vaspio.py:653). -/
theorem C1_idos_stores_total_column :
    ((runEvents [] c1Events).toOption.map (fun st => (st.tdos, st.idos))) =
      some (.dos ⟨none, some [0], [(Spin.up, [1])]⟩,
            .dos ⟨none, some [0], [(Spin.up, [1])]⟩) ∧
    ([1] : List Dec) ≠ [2] := by decide

/-- C10 counterexample: on a stream whose first total-DOS spin set has
energy column `[0.0]` and whose second has `[5.0]`, the stored energy
grid is `[5.0]` -- the column of the *last* spin-set closed -- not the
claimed canonical grid of the first spin-set closed (vaspio.py:992
overwrites `dos_energies` on every spin-set close). -/
theorem C10_counterexample :
    ((runEvents [] c10Events).toOption.map VState.dos_energies) = some (some [5]) ∧
    some (some ([5] : List Dec)) ≠ some (some [0]) := by decide

/-- C8 counterexample: a calculation section that closes with a
structure and force/stress data but no electronic-step data does not
fail: the parse succeeds and records one IonicStep whose
electronic-step list is empty (no check at vaspio.py:963-964). -/
theorem C8_counterexample :
    ((runEvents [] c8Events).toOption.map
        (fun st => st.ionic_steps.map IonicStep.electronic_steps)) = some [[]] := by decide

/-- No branch of the structure/dos/eigen chain matches `calculation`. -/
theorem endRestPart_on_calculation (st : VState) : endRestPart st "calculation" = .ok st := by
  simp [endRestPart, endRestStructure, endRestDos, endRestEigen]

/-- No branch of the `read_calculation` group matches `set`. -/
theorem endCalcPart_on_set (st : VState) : endCalcPart st "set" = .ok st := by
  simp [endCalcPart]

/-- No branch of the `read_calculation` group matches `total`. -/
theorem endCalcPart_on_total (st : VState) : endCalcPart st "total" = .ok st := by
  simp [endCalcPart]

/-- No branch of the `read_calculation` group matches `partial`. -/
theorem endCalcPart_on_pdos_close (st : VState) : endCalcPart st "partial" = .ok st := by
  simp [endCalcPart]

/-- C8 (amended): if a calculation section closes when no
StructureSnapshot has been accumulated, parsing fails with a
`StructuralError`; any raised error aborts the fold, so no events after
the failure are consumed and no partial result is returned.  A
calculation closing with no electronic-step data, however, does not
fail: it records an IonicStep whose electronic-step list is empty
(there is no truncation check at vaspio.py:963-964). -/
theorem C8_amended :
    (∀ st : VState, st.input_read = true → st.read_calculation = true → st.structures = [] →
      endElement st "calculation" = .error .structuralError) ∧
    (∀ (st : VState) (es : List XEvent) (err : VErr), runEventsFrom st es = .error err →
      ∀ more, runEventsFrom st (es ++ more) = .error err) ∧
    (∀ (st : VState) (s : Structure') (f sg : List (List Dec)),
      st.input_read = true → st.read_calculation = true →
      st.structures.getLast? = some s → st.forces = some f → st.stress = some sg →
      ((endElement st "calculation").toOption.map VState.ionic_steps) =
        some (st.ionic_steps ++ [⟨st.scdata, s, f, sg⟩])) := by
  refine ⟨?_, ?_, ?_⟩
  · intro st h1 h2 h3
    simp [endElement, endCalcPart, h1, h2, h3]
  · intro st es err h more
    induction es generalizing st with
    | nil => simp [runEventsFrom] at h
    | cons e es ih =>
      rw [List.cons_append]
      simp only [runEventsFrom] at h ⊢
      cases hs : stepEvent st e with
      | ok st' =>
        rw [hs] at h
        exact ih st' h
      | error e' =>
        rw [hs] at h
        exact h
  · intro st s f sg h1 h2 h3 h4 h5
    simp [endElement, endCalcPart, endRestPart_on_calculation, h1, h2, h3, h4, h5]
    exact ⟨_, rfl, rfl⟩

/-- Witness for C8 (amended): a calculation close on an empty structure
list fails structurally and the failure persists under appended events;
a close with a structure and force/stress matrices but empty `scdata`
succeeds with an empty electronic-step list. -/
theorem C8_witness :
    endElement calcStEmpty "calculation" = .error .structuralError ∧
    runEventsFrom calcStEmpty ([.endE "calculation"] ++ [.text "more"]) =
      .error .structuralError ∧
    ((endElement calcStNoConv "calculation").toOption.map VState.ionic_steps) =
      some [⟨[], blockStructure, [[0, 0, 0], [0, 0, 0]],
            [[1, 0, 0], [0, 1, 0], [0, 0, 1]]⟩] :=
  ⟨C8_amended.1 calcStEmpty rfl rfl rfl,
   C8_amended.2.1 calcStEmpty [.endE "calculation"] .structuralError rfl [.text "more"],
   C8_amended.2.2 calcStNoConv blockStructure [[0, 0, 0], [0, 0, 0]]
     [[1, 0, 0], [0, 1, 0], [0, 0, 1]] rfl rfl (by decide) (by decide) (by decide)⟩

/-- Every `PDos` built by the per-atom loop carries the energy grid it
was given. -/
theorem buildPdosRow_energies (pm : List ((Int × Nat × Spin) × List Dec)) (ef : Option Dec)
    (en : Option (List Dec)) (ia : Int) :
    ∀ (k io : Nat) (row : List PDos'), buildPdosRow pm ef en ia k io = some row →
      ∀ p ∈ row, p.energies = en := by
  intro k
  induction k with
  | zero =>
    intro io row h p hp
    simp [buildPdosRow] at h
    subst h
    cases hp
  | succ k ih =>
    intro io row h p hp
    unfold buildPdosRow at h
    split at h
    · exact absurd h (by simp)
    · split at h
      all_goals {
        cases hrest : buildPdosRow pm ef en ia k (io + 1) with
        | none => rw [hrest] at h; exact absurd h (by simp)
        | some row' =>
          rw [hrest] at h
          simp at h
          subst h
          cases hp with
          | head => first | rfl | (split <;> rfl)
          | tail _ hmem => exact ih (io + 1) row' hrest p hmem }

/-- Every `PDos` entry built at the projected-DOS section close carries
the energy grid it was given. -/
theorem buildAllPdos_energies (pm : List ((Int × Nat × Spin) × List Dec)) (ef : Option Dec)
    (en : Option (List Dec)) (norb : Nat) :
    ∀ (k : Nat) (ia : Int) (all : List (List PDos')), buildAllPdos pm ef en norb k ia = some all →
      ∀ row ∈ all, ∀ p ∈ row, p.energies = en := by
  intro k
  induction k with
  | zero =>
    intro ia all h row hrow
    simp [buildAllPdos] at h
    subst h
    cases hrow
  | succ k ih =>
    intro ia all h row hrow
    unfold buildAllPdos at h
    split at h
    · exact absurd h (by simp)
    · rename_i row0 hrow0
      cases hrest : buildAllPdos pm ef en norb k (ia + 1) with
      | none => rw [hrest] at h; exact absurd h (by simp)
      | some all' =>
        rw [hrest] at h
        simp at h
        subst h
        cases hrow with
        | head => exact buildPdosRow_energies pm ef en ia norb 0 row hrow0
        | tail _ hmem => exact ih (ia + 1) all' hrest row hmem

/-- Shape of the projected-DOS section close (vaspio.py:1002-1014). -/
theorem endRestPart_pdos_close (st : VState) (h2 : st.read_structure = false)
    (h3 : st.read_dos = true) :
    endRestPart st "partial" =
      match st.pdos with
      | .dict pm =>
        match buildAllPdos pm st.efermi st.dos_energies st.norbitals
            st.atomic_symbols.length 1 with
        | some all => .ok { st with pdos := .done all }
        | none => .error .structuralError
      | .done _ => .error .structuralError := by
  unfold endRestPart endRestDos
  rw [h2, h3]
  simp

/-- C10 (amended): every total-DOS spin-set close overwrites the stored
energy grid with the energy column just accumulated -- so the grid that
remains is that of the *last* spin-set closed, not the first; the
`total` close attaches the currently stored grid to both the total and
the integrated `Dos` containers (one shared grid for all spin
channels); and every projected-DOS entry built at the `partial` close
carries the currently stored grid. -/
theorem C10_amended :
    (∀ (st : VState) (lbl : String), st.input_read = true → st.read_structure = false →
      st.read_dos = true → st.state "set" = .s lbl →
      "spin".toList.isPrefixOf lbl.toList = true →
      (st.state "total").truthy = true →
      ∀ tm im, st.tdos = .dict tm → st.idos = .dict im →
      ((endElement st "set").toOption.map VState.dos_energies) = some (some st.dos_energies_val)) ∧
    (∀ (st : VState) tm im, st.input_read = true → st.read_structure = false →
      st.read_dos = true → st.tdos = .dict tm → st.idos = .dict im →
      ((endElement st "total").toOption.map (fun r => (r.tdos, r.idos))) =
        some (.dos ⟨st.efermi, st.dos_energies, tm⟩, .dos ⟨st.efermi, st.dos_energies, im⟩)) ∧
    (∀ (st st' : VState) (l : List (List PDos')), st.input_read = true →
      st.read_structure = false → st.read_dos = true →
      endElement st "partial" = .ok st' → st'.pdos = .done l →
      ∀ row ∈ l, ∀ p ∈ row, p.energies = st.dos_energies) := by
  refine ⟨?_, ?_, ?_⟩
  · intro st lbl h1 h2 h3 h4 h5 h6 tm im h7 h8
    have h5' : (['s', 'p', 'i', 'n'] <+: lbl.data) := List.isPrefixOf_iff_prefix.mp h5
    simp [endElement, endCalcPart_on_set, endRestPart, endRestDos, h1, h2, h3, h4, h5, h5',
      h6, h7, h8, SVal.startsWith]
    exact ⟨_, rfl, rfl⟩
  · intro st tm im h1 h2 h3 h4 h5
    simp [endElement, endCalcPart_on_total, endRestPart, endRestDos, h1, h2, h3, h4, h5]
    exact ⟨_, rfl, rfl, rfl⟩
  · intro st st' l h1 h2 h3 h4 h5
    unfold endElement at h4
    rw [endCalcPart_on_pdos_close] at h4
    simp only [h1, Bool.not_true, not_true, reduceIte, if_false] at h4
    rw [endRestPart_pdos_close st h2 h3] at h4
    split at h4
    · exact absurd h4 (by simp)
    · rename_i stm heq
      injection h4 with h4
      subst h4
      replace h5 : stm.pdos = PdosField.done l := h5
      split at heq
      · rename_i pm hpm
        split at heq
        · rename_i all hall
          injection heq with heq
          subst heq
          replace h5 : PdosField.done all = PdosField.done l := h5
          injection h5 with h5
          subst h5
          exact buildAllPdos_energies pm st.efermi st.dos_energies st.norbitals
            st.atomic_symbols.length 1 all hall
        · exact absurd heq (by simp)
      · exact absurd heq (by simp)

/-- Witness for C10 (amended): a `spin 2` set close replaces a
previously stored grid `[99]` by its own energy column `[5]`; a `total`
close attaches the stored grid `[5]` to both Dos containers; the
projected entry built from a stored grid `[5]` carries `[5]`. -/
theorem C10_witness :
    ((endElement dosStSpinClose "set").toOption.map VState.dos_energies) = some (some [5]) ∧
    ((endElement dosStTotalClose "total").toOption.map (fun r => (r.tdos, r.idos))) =
      some (.dos ⟨none, some [5], [(Spin.up, [1])]⟩, .dos ⟨none, some [5], [(Spin.up, [1])]⟩) ∧
    (⟨none, some [5], [(Spin.up, [7])], 0⟩ : PDos').energies = some [5] :=
  ⟨C10_amended.1 dosStSpinClose "spin 2" rfl rfl rfl (by decide) (by decide) (by decide)
     [] [] rfl rfl,
   C10_amended.2.1 dosStTotalClose [(Spin.up, [1])] [(Spin.up, [1])] rfl rfl rfl rfl rfl,
   C10_amended.2.2 dosStPdosClose _ [[⟨none, some [5], [(Spin.up, [7])], 0⟩]]
     rfl rfl rfl rfl rfl [⟨none, some [5], [(Spin.up, [7])], 0⟩] (by decide)
     ⟨none, some [5], [(Spin.up, [7])], 0⟩ (by decide)⟩

/-- Decimal digit characters decode to their digit. -/
theorem digitVal?_digitChar10 {d : Nat} (h : d < 10) : digitVal? (digitChar10 d) = some d := by
  interval_cases d <;> decide

/-- Digit characters are not whitespace. -/
theorem digitChar10_not_space {d : Nat} (h : d < 10) : isSpace (digitChar10 d) = false := by
  interval_cases d <;> decide

/-- Digit characters are not the minus sign. -/
theorem digitChar10_ne_minus {d : Nat} (h : d < 10) : digitChar10 d ≠ '-' := by
  interval_cases d <;> decide

/-- Digit characters are not the plus sign. -/
theorem digitChar10_ne_plus {d : Nat} (h : d < 10) : digitChar10 d ≠ '+' := by
  interval_cases d <;> decide

/-- Decoding a printed digit list recovers the digits. -/
theorem allSome_digitChars : ∀ (ds : List Nat), (∀ d ∈ ds, d < 10) →
    allSome digitVal? (ds.map digitChar10) = some ds := by
  intro ds
  induction ds with
  | nil => intro _; rfl
  | cons d ds ih =>
    intro h
    simp only [List.map_cons, allSome, digitVal?_digitChar10 (h d (by simp)),
      ih (fun x hx => h x (by simp [hx])), Option.map_some']

/-- The big-endian digit fold computes the little-endian digit value. -/
theorem foldl_reverse_ofDigits : ∀ (L : List Nat) (a : Nat),
    (L.reverse).foldl (fun a d => 10 * a + d) a = a * 10 ^ L.length + Nat.ofDigits 10 L := by
  intro L
  induction L with
  | nil => intro a; simp
  | cons d L ih =>
    intro a
    rw [List.reverse_cons, List.foldl_append, ih]
    simp only [List.foldl_cons, List.foldl_nil, Nat.ofDigits_cons, List.length_cons, pow_succ]
    ring

/-- `dropWhile` is the identity on space-free text. -/
theorem dropWhile_space_eq_self (l : List Char) (h : ∀ c ∈ l, isSpace c = false) :
    l.dropWhile isSpace = l := by
  cases l with
  | nil => rfl
  | cons c t => simp [List.dropWhile_cons, h c (by simp)]

/-- `strip()` is the identity on space-free text. -/
theorem stripChars_eq_self (l : List Char) (h : ∀ c ∈ l, isSpace c = false) :
    stripChars l = l := by
  unfold stripChars
  rw [dropWhile_space_eq_self l h,
    dropWhile_space_eq_self _ (fun c hc => h c (List.mem_reverse.mp hc)), List.reverse_reverse]

/-- Parsing the printed digits of `n` gives back `n`. -/
theorem digitsVal?_digits (n : Nat) (hn : n ≠ 0) :
    digitsVal? ((Nat.digits 10 n).reverse.map digitChar10) = some n := by
  have hd : ∀ d ∈ (Nat.digits 10 n).reverse, d < 10 := by
    intro d hd
    exact Nat.digits_lt_base (by norm_num) (List.mem_reverse.mp hd)
  unfold digitsVal?
  rw [allSome_digitChars _ hd]
  have hne : Nat.digits 10 n ≠ [] := Nat.digits_ne_nil_iff_ne_zero.mpr hn
  have hrev : ((Nat.digits 10 n).reverse).isEmpty = false := by
    simp [List.isEmpty_iff, hne]
  simp only [hrev, Bool.false_eq_true, if_false]
  rw [foldl_reverse_ofDigits]
  simp [Nat.ofDigits_digits]

/-- Characters of a printed positive natural. -/
theorem natToStr_toList_pos (n : Nat) (hn : n ≠ 0) :
    (natToStr n).toList = (Nat.digits 10 n).reverse.map digitChar10 := by
  unfold natToStr
  rw [if_neg hn]
  rfl

/-- Unfolding equation of the sign/digit dispatch. -/
theorem pyIntChars?_cons (c : Char) (cs : List Char) :
    pyIntChars? (c :: cs) =
      if c = '-' then (digitsVal? cs).map (fun n => -(n : Int))
      else if c = '+' then (digitsVal? cs).map (fun n => (n : Int))
      else (digitsVal? (c :: cs)).map (fun n => (n : Int)) := rfl

/-- `int(str(n)) == n`: the decoder inverts the printer. -/
theorem pyInt?_intToStr (n : Int) : pyInt? (intToStr n) = some n := by
  by_cases h0 : n = 0
  · subst h0; decide
  · have habs : n.natAbs ≠ 0 := by omega
    have hdigits : Nat.digits 10 n.natAbs ≠ [] := Nat.digits_ne_nil_iff_ne_zero.mpr habs
    have hdlt : ∀ d ∈ (Nat.digits 10 n.natAbs).reverse, d < 10 := by
      intro d hd
      exact Nat.digits_lt_base (by norm_num) (List.mem_reverse.mp hd)
    obtain ⟨d0, rest, hcons⟩ : ∃ d0 rest, (Nat.digits 10 n.natAbs).reverse = d0 :: rest := by
      cases hr : (Nat.digits 10 n.natAbs).reverse with
      | nil => exact absurd (by simpa using hr) hdigits
      | cons a b => exact ⟨a, b, rfl⟩
    have hd0 : d0 < 10 := hdlt d0 (by rw [hcons]; simp)
    have hnospace : ∀ c ∈ (natToStr n.natAbs).toList, isSpace c = false := by
      rw [natToStr_toList_pos _ habs]
      intro c hc
      obtain ⟨d, hd, rfl⟩ := List.mem_map.mp hc
      exact digitChar10_not_space (hdlt d hd)
    by_cases hneg : n < 0
    · have htl : (intToStr n).toList = '-' :: (natToStr n.natAbs).toList := by
        unfold intToStr
        rw [if_pos hneg]
        show ("-" ++ natToStr n.natAbs).data = '-' :: (natToStr n.natAbs).data
        rw [String.data_append]
        rfl
      have hns : ∀ c ∈ '-' :: (natToStr n.natAbs).toList, isSpace c = false := by
        intro c hc
        cases hc with
        | head => decide
        | tail _ h => exact hnospace c h
      unfold pyInt?
      rw [htl, stripChars_eq_self _ hns, pyIntChars?_cons, if_pos rfl]
      rw [natToStr_toList_pos _ habs, digitsVal?_digits _ habs]
      show some (-(n.natAbs : Int)) = some n
      congr 1
      omega
    · have htl : (intToStr n).toList = (natToStr n.natAbs).toList := by
        unfold intToStr
        rw [if_neg hneg]
      unfold pyInt?
      rw [htl, stripChars_eq_self _ hnospace, natToStr_toList_pos _ habs, hcons, List.map_cons]
      rw [pyIntChars?_cons]
      rw [if_neg (digitChar10_ne_minus hd0), if_neg (digitChar10_ne_plus hd0)]
      rw [← List.map_cons, ← hcons, digitsVal?_digits _ habs]
      show some ((n.natAbs : Int)) = some n
      congr 1
      omega

/-- Splitting separator-free text yields one token. -/
theorem splitWsAux_no_sep : ∀ (t cur : List Char), (∀ c ∈ t, isSpace c = false) →
    splitWsAux t cur = [cur.reverse ++ t] := by
  intro t
  induction t with
  | nil => intro cur _; simp [splitWsAux]
  | cons c t ih =>
    intro cur h
    rw [splitWsAux]
    rw [if_neg (by simp [h c (by simp)])]
    rw [ih (c :: cur) (fun x hx => h x (by simp [hx]))]
    simp

/-- Splitting text that starts with a separator-free token followed by
a space emits that token and continues in separator-skipping mode. -/
theorem splitWsAux_sep (r : List Char) : ∀ (t cur : List Char),
    (∀ c ∈ t, isSpace c = false) →
    splitWsAux (t ++ ' ' :: r) cur = (cur.reverse ++ t) :: splitWsSkip r := by
  intro t
  induction t with
  | nil =>
    intro cur _
    rw [List.nil_append, splitWsAux, if_pos (by decide)]
    simp
  | cons c t ih =>
    intro cur h
    rw [List.cons_append, splitWsAux]
    rw [if_neg (by simp [h c (by simp)])]
    rw [ih (c :: cur) (fun x hx => h x (by simp [hx]))]
    simp

/-- After a separator run, splitting resumes exactly as from scratch. -/
theorem splitWsSkip_nonspace_head (c : Char) (t : List Char) (hc : isSpace c = false) :
    splitWsSkip (c :: t) = splitWsAux (c :: t) [] := by
  rw [splitWsSkip, if_neg (by simp [hc]), splitWsAux, if_neg (by simp [hc])]

/-- `re.split("\\s+", " ".join(ts)) == ts` at the character level, for
nonempty space-free tokens. -/
theorem splitWsChars_charsJoin : ∀ ts : List (List Char),
    (∀ t ∈ ts, t ≠ [] ∧ ∀ c ∈ t, isSpace c = false) → ts ≠ [] →
    splitWsChars (charsJoin ts) = ts := by
  intro ts
  induction ts with
  | nil => intro _ h; exact absurd rfl h
  | cons t rest ih =>
    intro hgood _
    cases rest with
    | nil =>
      rw [show charsJoin [t] = t from rfl]
      unfold splitWsChars
      rw [splitWsAux_no_sep t [] (hgood t (by simp)).2]
      simp
    | cons t2 rest2 =>
      rw [show charsJoin (t :: t2 :: rest2) = t ++ ' ' :: charsJoin (t2 :: rest2) from rfl]
      unfold splitWsChars
      rw [splitWsAux_sep _ t [] (hgood t (by simp)).2]
      obtain ⟨c2, t2', hc2⟩ : ∃ c2 t2', t2 = c2 :: t2' := by
        cases ht2 : t2 with
        | nil => exact absurd ht2 (hgood t2 (by simp)).1
        | cons a b => exact ⟨a, b, rfl⟩
      have hc2s : isSpace c2 = false := by
        have := (hgood t2 (by simp)).2
        rw [hc2] at this
        exact this c2 (by simp)
      obtain ⟨X, hjoin⟩ : ∃ X, charsJoin (t2 :: rest2) = c2 :: X := by
        cases rest2 with
        | nil => exact ⟨t2', by rw [show charsJoin [t2] = t2 from rfl, hc2]⟩
        | cons a b =>
          refine ⟨t2' ++ ' ' :: charsJoin (a :: b), ?_⟩
          rw [show charsJoin (t2 :: a :: b) = t2 ++ ' ' :: charsJoin (a :: b) from rfl, hc2]
          simp
      rw [hjoin, splitWsSkip_nonspace_head c2 X hc2s, ← hjoin]
      have := ih (fun x hx => hgood x (by simp [hx])) (by simp)
      unfold splitWsChars at this
      rw [this]
      simp

/-- Characters of a `" ".join`. -/
theorem joinSpace_toList : ∀ ts : List String,
    (joinSpace ts).toList = charsJoin (ts.map String.toList)
  | [] => rfl
  | [_] => rfl
  | x :: y :: rest => by
    show (x ++ " " ++ joinSpace (y :: rest)).data = _
    rw [String.data_append, String.data_append]
    rw [show (joinSpace (y :: rest)).data = (joinSpace (y :: rest)).toList from rfl]
    rw [joinSpace_toList (y :: rest)]
    show (x.data ++ [' ']) ++ charsJoin (List.map String.toList (y :: rest)) =
      x.toList ++ ' ' :: charsJoin (List.map String.toList (y :: rest))
    simp

/-- `re.split("\\s+", " ".join(ts)) == ts` for nonempty space-free
tokens. -/
theorem splitWs_joinSpace (ts : List String) (hne : ts ≠ [])
    (hgood : ∀ t ∈ ts, t.toList ≠ [] ∧ ∀ c ∈ t.toList, isSpace c = false) :
    splitWs (joinSpace ts) = ts := by
  unfold splitWs
  rw [joinSpace_toList, splitWsChars_charsJoin (ts.map String.toList) ?good ?ne]
  case good =>
    intro t ht
    obtain ⟨x, hx, rfl⟩ := List.mem_map.mp ht
    exact hgood x hx
  case ne => simp [hne]
  rw [List.map_map]
  have hid : ∀ t : String, ((⟨·⟩) ∘ String.toList) t = t := fun t => rfl
  calc (ts.map ((⟨·⟩) ∘ String.toList)) = ts.map id := List.map_congr_left (fun t _ => hid t)
    _ = ts := List.map_id ts

/-- A comprehension over printed values recovers the values. -/
theorem allSome_of_pointwise {α β : Type} (f : α → Option β) (g : β → α)
    (hfg : ∀ b, f (g b) = some b) : ∀ l : List β, allSome f (l.map g) = some l := by
  intro l
  induction l with
  | nil => rfl
  | cons b l ih => simp [allSome, hfg b, ih]

/-- A printed int is a nonempty space-free token. -/
theorem intToStr_good (n : Int) :
    (intToStr n).toList ≠ [] ∧ ∀ c ∈ (intToStr n).toList, isSpace c = false := by
  by_cases h0 : n = 0
  · subst h0
    exact ⟨by decide, by decide⟩
  · have habs : n.natAbs ≠ 0 := by omega
    have hdlt : ∀ d ∈ (Nat.digits 10 n.natAbs).reverse, d < 10 := by
      intro d hd
      exact Nat.digits_lt_base (by norm_num) (List.mem_reverse.mp hd)
    have hnat_ne : (natToStr n.natAbs).toList ≠ [] := by
      rw [natToStr_toList_pos _ habs]
      simp [Nat.digits_ne_nil_iff_ne_zero.mpr habs]
    have hnat_ns : ∀ c ∈ (natToStr n.natAbs).toList, isSpace c = false := by
      rw [natToStr_toList_pos _ habs]
      intro c hc
      obtain ⟨d, hd, rfl⟩ := List.mem_map.mp hc
      exact digitChar10_not_space (hdlt d hd)
    by_cases hneg : n < 0
    · have htl : (intToStr n).toList = '-' :: (natToStr n.natAbs).toList := by
        unfold intToStr
        rw [if_pos hneg]
        show ("-" ++ natToStr n.natAbs).data = '-' :: (natToStr n.natAbs).data
        rw [String.data_append]
        rfl
      rw [htl]
      refine ⟨by simp, ?_⟩
      intro c hc
      cases hc with
      | head => decide
      | tail _ h => exact hnat_ns c h
    · have htl : (intToStr n).toList = (natToStr n.natAbs).toList := by
        unfold intToStr
        rw [if_neg hneg]
      rw [htl]
      exact ⟨hnat_ne, hnat_ns⟩

/-- C9 (amended): round-tripping a RunParameters value through
`Incar.get_string`'s textual form and the typed value decoder returns
the original value for int scalars, already-trimmed string scalars, and
nonempty lists of ints and of whitespace-free nonempty strings.  It
does NOT hold for booleans: `str()` encodes them as `"True"`/`"False"`
and the logical decoder compares against `"T"` only, so every scalar
bool re-decodes to `False` (hence only `False` survives) and every
bool list re-decodes to all-`False`.  (Float values are IEEE doubles
whose `str` printing is floating-point behaviour outside this exact
decimal model; they are not covered.) -/
theorem C9_amended :
    (∀ n : Int, parse_parameters "int" (encodeVal (.i n)) = .ok (.i n)) ∧
    (∀ s : String, pyStrip s = s → parse_parameters "string" (encodeVal (.s s)) = .ok (.s s)) ∧
    (∀ b : Bool, parse_parameters "logical" (encodeVal (.b b)) = .ok (.b false)) ∧
    (∀ l : List Int, l ≠ [] → ∀ dir nm,
      parse_v_parameters "int" (encodeVal (.listI l)) dir nm = .ok (.listI l)) ∧
    (∀ l : List String, l ≠ [] →
      (∀ t ∈ l, t.toList ≠ [] ∧ ∀ c ∈ t.toList, isSpace c = false) → ∀ dir nm,
      parse_v_parameters "string" (encodeVal (.listS l)) dir nm = .ok (.listS l)) ∧
    (∀ l : List Bool, l ≠ [] → ∀ dir nm,
      parse_v_parameters "logical" (encodeVal (.listB l)) dir nm =
        .ok (.listB (l.map (fun _ => false)))) := by
  refine ⟨?_, ?_, ?_, ?_, ?_, ?_⟩
  · intro n
    simp [parse_parameters, encodeVal, pyInt?_intToStr n]
  · intro s h
    simp [parse_parameters, encodeVal, h]
  · intro b
    cases b <;> decide
  · intro l hl dir nm
    have hsplit : splitWs (joinSpace (l.map intToStr)) = l.map intToStr := by
      apply splitWs_joinSpace
      · simp [hl]
      · intro t ht
        obtain ⟨n, _, rfl⟩ := List.mem_map.mp ht
        exact intToStr_good n
    simp [parse_v_parameters, encodeVal, hsplit,
      allSome_of_pointwise pyInt? intToStr pyInt?_intToStr l]
  · intro l hl hgood dir nm
    have hsplit : splitWs (joinSpace l) = l := splitWs_joinSpace l hl hgood
    simp [parse_v_parameters, encodeVal, hsplit]
  · intro l hl dir nm
    have hsplit : splitWs (joinSpace (l.map (fun b => if b then "True" else "False"))) =
        l.map (fun b => if b then "True" else "False") := by
      apply splitWs_joinSpace
      · simp [hl]
      · intro t ht
        obtain ⟨b, _, rfl⟩ := List.mem_map.mp ht
        cases b <;> exact ⟨by decide, by decide⟩
    simp only [parse_v_parameters, encodeVal, hsplit, reduceIte]
    congr 1
    congr 1
    rw [List.map_map]
    apply List.map_congr_left
    intro b _
    cases b <;> decide

/-- C9 counterexample: the boolean `True` encodes to `"True"`, which
the logical decoder maps back to `False`, so the encode/decode
round-trip claimed for each of bool/int/float/string fails already at
`True`. -/
theorem C9_counterexample :
    encodeVal (.b true) = "True" ∧
    parse_parameters "logical" (encodeVal (.b true)) = .ok (.b false) ∧
    PVal.b false ≠ PVal.b true := by decide

/-- Witness for C9 (amended) at concrete values of every covered
shape. -/
theorem C9_witness :
    parse_parameters "int" (encodeVal (.i (-37))) = .ok (.i (-37)) ∧
    parse_parameters "string" (encodeVal (.s "Accurate")) = .ok (.s "Accurate") ∧
    parse_parameters "logical" (encodeVal (.b false)) = .ok (.b false) ∧
    parse_v_parameters "int" (encodeVal (.listI [2, -3, 0])) [] "LDAUL" = .ok (.listI [2, -3, 0]) ∧
    parse_v_parameters "string" (encodeVal (.listS ["PE", "Fe"])) [] "POT" =
      .ok (.listS ["PE", "Fe"]) ∧
    parse_v_parameters "logical" (encodeVal (.listB [false, true])) [] "LW" =
      .ok (.listB [false, false]) :=
  ⟨C9_amended.1 (-37),
   C9_amended.2.1 "Accurate" (by decide),
   C9_amended.2.2.1 false,
   C9_amended.2.2.2.1 [2, -3, 0] (by decide) [] "LDAUL",
   C9_amended.2.2.2.2.1 ["PE", "Fe"] (by decide) (by decide) [] "POT",
   (C9_amended.2.2.2.2.2 [false, true] (by decide) [] "LW").trans (by decide)⟩

theorem chunk3_spec : ∀ (l : List Dec) (m : List (List Dec)), chunk3 l = some m →
    l.length = 3 * m.length ∧ ∀ r ∈ m, r.length = 3
  | [], m, h => by
    simp [chunk3] at h
    subst h
    simp
  | [a], m, h => by simp [chunk3] at h
  | [a, b], m, h => by simp [chunk3] at h
  | a :: b :: c :: rest, m, h => by
    simp only [chunk3] at h
    cases hrest : chunk3 rest with
    | none => rw [hrest] at h; simp at h
    | some m' =>
      rw [hrest] at h
      simp at h
      subst h
      obtain ⟨h1, h2⟩ := chunk3_spec rest m' hrest
      refine ⟨by simp [h1]; ring, ?_⟩
      intro r hr
      cases hr with
      | head => rfl
      | tail _ hm => exact h2 r hm

theorem reshapeN3_spec (l : List Dec) (n : Nat) (m : List (List Dec))
    (h : reshapeN3 l n = some m) : m.length = n ∧ ∀ r ∈ m, r.length = 3 := by
  unfold reshapeN3 at h
  split at h
  · rename_i hlen
    obtain ⟨h1, h2⟩ := chunk3_spec l m h
    exact ⟨by omega, h2⟩
  · exact absurd h (by simp)

theorem HandlerInv_initial (dir : List (String × List (String × PVal))) :
    HandlerInv (initialState dir) := by
  refine ⟨?_, ?_, ?_, ?_⟩ <;> simp [initialState]

theorem startCalcA_fields (st : VState) (n : String) :
    (startCalcA st n).structures = st.structures ∧
    (startCalcA st n).ionic_steps = st.ionic_steps ∧
    (startCalcA st n).forces = st.forces ∧
    (startCalcA st n).atomic_symbols = st.atomic_symbols ∧
    (startCalcA st n).input_read = st.input_read := by
  unfold startCalcA
  repeat' split
  all_goals exact ⟨rfl, rfl, rfl, rfl, rfl⟩

theorem startCalcB_fields (st : VState) (n : String) :
    (startCalcB st n).structures = st.structures ∧
    (startCalcB st n).ionic_steps = st.ionic_steps ∧
    (startCalcB st n).forces = st.forces ∧
    (startCalcB st n).atomic_symbols = st.atomic_symbols ∧
    (startCalcB st n).input_read = st.input_read := by
  unfold startCalcB
  repeat' split
  all_goals exact ⟨rfl, rfl, rfl, rfl, rfl⟩

theorem startCalcC_fields (st : VState) (n : String) :
    (startCalcC st n).structures = st.structures ∧
    (startCalcC st n).ionic_steps = st.ionic_steps ∧
    (startCalcC st n).forces = st.forces ∧
    (startCalcC st n).atomic_symbols = st.atomic_symbols ∧
    (startCalcC st n).input_read = st.input_read := by
  unfold startCalcC
  repeat' split
  all_goals exact ⟨rfl, rfl, rfl, rfl, rfl⟩

theorem startCalcD_pres (st st' : VState) (n : String) (a : List (String × String))
    (h : startCalcD st n a = .ok st') :
    st'.structures = st.structures ∧ st'.ionic_steps = st.ionic_steps ∧
    st'.forces = st.forces ∧ st'.atomic_symbols = st.atomic_symbols ∧
    st'.input_read = st.input_read := by
  simp only [startCalcD] at h
  repeat' split at h
  all_goals try exact Except.noConfusion h
  all_goals injection h with h
  all_goals subst h
  all_goals refine ⟨?_, ?_, ?_, ?_, ?_⟩
  all_goals rfl

theorem startCalc_pres (st st' : VState) (n : String) (a : List (String × String))
    (h : startCalc st n a = .ok st') :
    st'.structures = st.structures ∧ st'.ionic_steps = st.ionic_steps ∧
    st'.forces = st.forces ∧ st'.atomic_symbols = st.atomic_symbols ∧
    st'.input_read = st.input_read := by
  unfold startCalc at h
  obtain ⟨d1, d2, d3, d4, d5⟩ := startCalcD_pres _ _ _ _ h
  obtain ⟨c1, c2, c3, c4, c5⟩ := startCalcC_fields (startCalcB (startCalcA st n) n) n
  obtain ⟨b1, b2, b3, b4, b5⟩ := startCalcB_fields (startCalcA st n) n
  obtain ⟨a1, a2, a3, a4, a5⟩ := startCalcA_fields st n
  exact ⟨d1.trans (c1.trans (b1.trans a1)), d2.trans (c2.trans (b2.trans a2)),
    d3.trans (c3.trans (b3.trans a3)), d4.trans (c4.trans (b4.trans a4)),
    d5.trans (c5.trans (b5.trans a5))⟩

theorem startElement_pres (st st' : VState) (n : String) (a : List (String × String))
    (h : startElement st n a = .ok st') :
    st'.structures = st.structures ∧ st'.ionic_steps = st.ionic_steps ∧
    st'.forces = st.forces ∧ st'.atomic_symbols = st.atomic_symbols ∧
    st'.input_read = st.input_read := by
  simp only [startElement] at h
  split at h
  · exact absurd h (by simp)
  · rename_i stm heq
    injection h with h
    subst h
    have hpres : stm.structures = st.structures ∧ stm.ionic_steps = st.ionic_steps ∧
        stm.forces = st.forces ∧ stm.atomic_symbols = st.atomic_symbols ∧
        stm.input_read = st.input_read := by
      split at heq
      · simp only [startInput] at heq
        repeat' split at heq
        all_goals try exact Except.noConfusion heq
        all_goals injection heq with heq
        all_goals subst heq
        all_goals exact ⟨rfl, rfl, rfl, rfl, rfl⟩
      · have hc := startCalc_pres _ _ _ _ heq
        exact hc
    obtain ⟨f1, f2, f3, f4, f5⟩ := hpres
    split
    · exact ⟨f1, f2, f3, f4, f5⟩
    · exact ⟨f1, f2, f3, f4, f5⟩

theorem characters_pres (st : VState) (d : String) :
    (characters st d).structures = st.structures ∧
    (characters st d).ionic_steps = st.ionic_steps ∧
    (characters st d).forces = st.forces ∧
    (characters st d).atomic_symbols = st.atomic_symbols ∧
    (characters st d).input_read = st.input_read := by
  simp only [characters]
  repeat' split
  all_goals exact ⟨rfl, rfl, rfl, rfl, rfl⟩

theorem endKpointsV1_fields (st st' : VState) (h : endKpointsV1 st = .ok st') :
    st'.structures = st.structures ∧ st'.ionic_steps = st.ionic_steps ∧
    st'.forces = st.forces := by
  simp only [endKpointsV1] at h
  repeat' split at h
  all_goals try exact Except.noConfusion h
  all_goals injection h with h
  all_goals subst h
  all_goals exact ⟨rfl, rfl, rfl⟩

theorem endKpointsV2_fields (st st' : VState) (h : endKpointsV2 st = .ok st') :
    st'.structures = st.structures ∧ st'.ionic_steps = st.ionic_steps ∧
    st'.forces = st.forces := by
  simp only [endKpointsV2] at h
  repeat' split at h
  all_goals try exact Except.noConfusion h
  all_goals injection h with h
  all_goals subst h
  all_goals exact ⟨rfl, rfl, rfl⟩

theorem endKpointsV3_fields (st st' : VState) (h : endKpointsV3 st = .ok st') :
    st'.structures = st.structures ∧ st'.ionic_steps = st.ionic_steps ∧
    st'.forces = st.forces := by
  simp only [endKpointsV3] at h
  repeat' split at h
  all_goals try exact Except.noConfusion h
  all_goals injection h with h
  all_goals subst h
  all_goals exact ⟨rfl, rfl, rfl⟩

theorem endKpointsV_fields (st st' : VState) (h : endKpointsV st = .ok st') :
    st'.structures = st.structures ∧ st'.ionic_steps = st.ionic_steps ∧
    st'.forces = st.forces := by
  unfold endKpointsV at h
  split at h
  · exact Except.noConfusion h
  · rename_i s1 h1
    split at h
    · exact Except.noConfusion h
    · rename_i s2 h2
      obtain ⟨a1, a2, a3⟩ := endKpointsV1_fields _ _ h1
      obtain ⟨b1, b2, b3⟩ := endKpointsV2_fields _ _ h2
      obtain ⟨c1, c2, c3⟩ := endKpointsV3_fields _ _ h
      exact ⟨c1.trans (b1.trans a1), c2.trans (b2.trans a2), c3.trans (b3.trans a3)⟩

theorem endInput_fields (st st' : VState) (n : String) (h : endInput st n = .ok st') :
    st'.structures = st.structures ∧ st'.ionic_steps = st.ionic_steps ∧
    st'.forces = st.forces := by
  simp only [endInput] at h
  repeat' split at h
  all_goals try exact Except.noConfusion h
  all_goals first
    | exact endKpointsV_fields _ _ h
    | (injection h with h; subst h; exact ⟨rfl, rfl, rfl⟩)

theorem endCalcPart_inv (st st' : VState) (n : String) (hin : st.input_read = true)
    (hInv : HandlerInv st) (h : endCalcPart st n = .ok st') :
    HandlerInv st' ∧ st'.input_read = true := by
  simp only [endCalcPart] at h
  repeat' split at h
  all_goals try exact Except.noConfusion h
  all_goals injection h with h
  all_goals subst h
  all_goals try exact ⟨hInv, hin⟩
  -- forces-varray close
  · rename_i x1 flat hflat x2 m hm
    obtain ⟨hlen, hrows⟩ := reshapeN3_spec _ _ _ hm
    refine ⟨⟨hInv.1, ?_, hInv.2.2.1, ?_⟩, hin⟩
    · intro m' hm'
      injection hm' with hm'
      subst hm'
      exact ⟨hlen, hrows⟩
    · intro hfalse
      exact absurd hfalse (by simp [hin])
  -- calculation close
  · rename_i x1 s hs x2 f hf x3 sg hsg
    have hmem : s ∈ st.structures := List.mem_of_mem_getLast? hs
    have hspec := hInv.1 s hmem
    obtain ⟨hflen, hfrows⟩ := hInv.2.1 f hf
    refine ⟨⟨hInv.1, hInv.2.1, ?_, ?_⟩, hin⟩
    · intro p hp
      rcases List.mem_append.mp hp with hold | hnew
      · exact hInv.2.2.1 p hold
      · rcases List.mem_singleton.mp hnew with rfl
        exact ⟨by rw [hflen, hspec], hfrows⟩
    · intro hfalse
      exact absurd hfalse (by simp [hin])

theorem endRestStructure_inv (st st' : VState) (n : String) (hin : st.input_read = true)
    (hInv : HandlerInv st) (h : endRestStructure st n = .ok st') :
    HandlerInv st' ∧ st'.input_read = true := by
  simp only [endRestStructure] at h
  repeat' split at h
  all_goals try exact Except.noConfusion h
  all_goals injection h with h
  all_goals subst h
  all_goals try exact ⟨hInv, hin⟩
  -- structure close
  · refine ⟨⟨?_, hInv.2.1, hInv.2.2.1, ?_⟩, hin⟩
    · intro s hs
      rcases List.mem_append.mp hs with hold | hnew
      · exact hInv.1 s hold
      · rcases List.mem_singleton.mp hnew with rfl
        rfl
    · intro hfalse
      exact absurd hfalse (by simp [hin])

theorem endRestDos_inv (st st' : VState) (n : String) (hin : st.input_read = true)
    (hInv : HandlerInv st) (h : endRestDos st n = .ok st') :
    HandlerInv st' ∧ st'.input_read = true := by
  simp only [endRestDos] at h
  repeat' split at h
  all_goals try exact Except.noConfusion h
  all_goals injection h with h
  all_goals subst h
  all_goals exact ⟨hInv, hin⟩

theorem endRestEigen_inv (st st' : VState) (n : String) (hin : st.input_read = true)
    (hInv : HandlerInv st) (h : endRestEigen st n = .ok st') :
    HandlerInv st' ∧ st'.input_read = true := by
  simp only [endRestEigen] at h
  repeat' split at h
  all_goals try exact Except.noConfusion h
  all_goals injection h with h
  all_goals subst h
  all_goals exact ⟨hInv, hin⟩

theorem endRestPart_inv (st st' : VState) (n : String) (hin : st.input_read = true)
    (hInv : HandlerInv st) (h : endRestPart st n = .ok st') :
    HandlerInv st' ∧ st'.input_read = true := by
  unfold endRestPart at h
  split at h
  · exact endRestStructure_inv _ _ _ hin hInv h
  · split at h
    · exact endRestDos_inv _ _ _ hin hInv h
    · split at h
      · exact endRestEigen_inv _ _ _ hin hInv h
      · injection h with h
        subst h
        exact ⟨hInv, hin⟩

theorem endElement_inv (st st' : VState) (n : String) (hInv : HandlerInv st)
    (h : endElement st n = .ok st') : HandlerInv st' := by
  unfold endElement at h
  cases hir : st.input_read with
  | false =>
    simp only [hir, Bool.false_eq_true, not_false_eq_true, if_true, reduceIte] at h
    cases heq : endInput st n with
    | error e =>
      rw [heq] at h
      exact Except.noConfusion h
    | ok stm =>
      rw [heq] at h
      injection h with h
      subst h
      obtain ⟨e1, e2, e3⟩ := endInput_fields _ _ _ heq
      obtain ⟨hs, hi, hf⟩ := hInv.2.2.2 hir
      refine ⟨?_, ?_, ?_, ?_⟩
      · intro s hs'
        rw [e1, hs] at hs'
        cases hs'
      · intro m hm
        rw [e3, hf] at hm
        cases hm
      · intro p hp
        rw [e2, hi] at hp
        cases hp
      · intro _
        rw [e1, e2, e3, hs, hi, hf]
        exact ⟨rfl, rfl, rfl⟩
  | true =>
    simp only [hir, not_true, Bool.not_true, Bool.false_eq_true, if_false, reduceIte] at h
    cases heq2 : endCalcPart st n with
    | error e =>
      simp only [heq2] at h
      exact Except.noConfusion h
    | ok st2 =>
      simp only [heq2] at h
      cases heq3 : endRestPart st2 n with
      | error e =>
        simp only [heq3] at h
        exact Except.noConfusion h
      | ok st3 =>
        simp only [heq3] at h
        injection h with h
        subst h
        obtain ⟨hInv2, hin2⟩ := endCalcPart_inv st st2 n hir hInv heq2
        exact (endRestPart_inv st2 st3 n hin2 hInv2 heq3).1

theorem stepEvent_inv (st st' : VState) (e : XEvent) (hInv : HandlerInv st)
    (h : stepEvent st e = .ok st') : HandlerInv st' := by
  cases e with
  | start nm a =>
    obtain ⟨p1, p2, p3, p4, p5⟩ := startElement_pres _ _ _ _ h
    obtain ⟨i1, i2, i3, i4⟩ := hInv
    refine ⟨?_, ?_, ?_, ?_⟩
    · rw [p1, p4]; exact i1
    · rw [p3, p4]; exact i2
    · rw [p2]; exact i3
    · rw [p5, p1, p2, p3]; exact i4
  | text d =>
    injection h with h
    subst h
    obtain ⟨p1, p2, p3, p4, p5⟩ := characters_pres st d
    obtain ⟨i1, i2, i3, i4⟩ := hInv
    refine ⟨?_, ?_, ?_, ?_⟩
    · rw [p1, p4]; exact i1
    · rw [p3, p4]; exact i2
    · rw [p2]; exact i3
    · rw [p5, p1, p2, p3]; exact i4
  | endE nm => exact endElement_inv _ _ _ hInv h

theorem runEventsFrom_inv : ∀ (es : List XEvent) (st st' : VState), HandlerInv st →
    runEventsFrom st es = .ok st' → HandlerInv st' := by
  intro es
  induction es with
  | nil =>
    intro st st' hInv h
    simp only [runEventsFrom] at h
    injection h with h
    subst h
    exact hInv
  | cons e es ih =>
    intro st st' hInv h
    simp only [runEventsFrom] at h
    cases hs : stepEvent st e with
    | ok stm =>
      rw [hs] at h
      exact ih stm st' (stepEvent_inv st stm e hInv hs) h
    | error err =>
      rw [hs] at h
      exact Except.noConfusion h

/-- C6: for every stream (the well-formed ones included) and every
IonicStep of the final parser state, the force matrix has exactly one
row of three entries per atom of the step's owning StructureSnapshot:
the reshape at vaspio.py:957 fixes the row count to the atom-catalogue
length, the snapshot at vaspio.py:974 records that same catalogue as
its species, and both are carried unchanged into the IonicStep at
vaspio.py:963-965 (proved as an inductive invariant of the handler). -/
theorem C6_force_shape (dir : List (String × List (String × PVal))) (es : List XEvent)
    (i : Nat) (stp : IonicStep)
    (h : ((runEvents dir es).toOption.bind (fun st => st.ionic_steps.get? i)) = some stp) :
    stp.forces.length = stp.structure'.species.length ∧ ∀ r ∈ stp.forces, r.length = 3 := by
  cases hrun : runEvents dir es with
  | error e =>
    rw [hrun] at h
    simp [Except.toOption] at h
  | ok st =>
    rw [hrun] at h
    simp only [Except.toOption, Option.bind_some, Option.some_bind] at h
    have hInv := runEventsFrom_inv es (initialState dir) st (HandlerInv_initial dir) hrun
    have hmem : stp ∈ st.ionic_steps := by
      have := List.get?_eq_some.mp h
      obtain ⟨hlt, hget⟩ := this
      exact hget ▸ List.get_mem _ _ _
    exact hInv.2.2.1 stp hmem

/-- Witness for C6: the single ionic step of the one-calculation
synthetic stream has a 2x3 force matrix matching its snapshot's two
atoms. -/
theorem C6_witness :
    blockIonicStep.forces.length = blockIonicStep.structure'.species.length ∧
    ∀ r ∈ blockIonicStep.forces, r.length = 3 :=
  C6_force_shape [] (mkStream 1) 0 blockIonicStep (by decide)

/-- The calculation-section stream is its close-free prefix plus the
`calculation` close. -/
theorem vaspCalcBlock_split : vaspCalcBlock = blockPre ++ [XEvent.endE "calculation"] := rfl

/-- The event fold distributes over stream concatenation (an error in
the first part aborts the whole parse). -/
theorem runEventsFrom_append (st : VState) (a b : List XEvent) :
    runEventsFrom st (a ++ b) =
      match runEventsFrom st a with
      | .ok stm => runEventsFrom stm b
      | .error e => .error e := by
  induction a generalizing st with
  | nil => rfl
  | cons e rest ih =>
    simp only [List.cons_append, runEventsFrom]
    cases stepEvent st e with
    | ok stm => exact ih stm
    | error err => rfl

set_option maxRecDepth 8000 in
set_option maxHeartbeats 2000000 in
/-- Consuming `blockPre` from any section boundary accumulates exactly
the snapshot, the electronic step and the force/stress matrices of the
section, leaving the `calculation` close pending. -/
theorem blockPre_run (st : VState) (σ : String → SVal) :
    runEventsFrom (blockEntry st σ) blockPre = .ok (blockMid st σ) := by
  have hb1 : floatList? (pyStrip "1.0 0.0 0.0\n0.0 1.0 0.0\n0.0 0.0 1.0\n") =
      some [Dec.norm 1 0, Dec.norm 0 0, Dec.norm 0 0, Dec.norm 0 0, Dec.norm 1 0,
        Dec.norm 0 0, Dec.norm 0 0, Dec.norm 0 0, Dec.norm 1 0] := by decide
  have hb2 : floatList? (pyStrip "0.0 0.0 0.0\n0.5 0.5 0.5\n") =
      some [Dec.norm 0 0, Dec.norm 0 0, Dec.norm 0 0, Dec.norm 5 (-1), Dec.norm 5 (-1),
        Dec.norm 5 (-1)] := by decide
  have hb3 : floatList? (pyStrip "0.0 0.0 0.0\n0.0 0.0 0.0\n") =
      some [Dec.norm 0 0, Dec.norm 0 0, Dec.norm 0 0, Dec.norm 0 0, Dec.norm 0 0,
        Dec.norm 0 0] := by decide
  have hb4 : pyFloat? "-10.5" = some (Dec.norm (-105) (-1)) := by decide
  simp only [blockPre, blockEntry, blockMid, blockTrace, updStates, runEventsFrom, stepEvent,
    startElement, startCalc, startCalcA, startCalcB, startCalcC, startCalcD, characters,
    endElement, endCalcPart, endRestPart, endRestStructure, endRestDos, endRestEigen,
    lookupAttr, updState, SVal.truthy, SVal.eqs, blockStructure, reshapeN3, chunk3,
    hb1, hb2, hb3, hb4, updAssoc,
    List.find?, List.any_nil, String.reduceEq, String.reduceBEq, String.reduceAppend,
    reduceIte, reduceCtorEq, Nat.reduceAdd, Nat.reduceMul,
    Option.map_some, Option.map_none, Option.map_some', Option.map_none', Option.getD,
    decide_True, decide_False, decide_eq_true_eq,
    not_true, not_false_iff, true_and, and_true, false_and, and_false, or_false, false_or,
    true_or, or_true, eq_self_iff_true, if_true, if_false, Bool.true_eq_false,
    Bool.false_eq_true, String.append_empty, String.empty_append, List.append_nil,
    List.nil_append, List.cons_append, List.length_cons, List.length_nil]

set_option maxRecDepth 8000 in
set_option maxHeartbeats 2000000 in
/-- The pending `calculation` close assembles one IonicStep from the
materials `blockPre` accumulated and lowers the section flag. -/
theorem blockEnd_run (st : VState) (σ : String → SVal) :
    endElement (blockMid st σ) "calculation" = .ok (blockExit st σ) := by
  simp only [endElement, endCalcPart, endRestPart, endRestStructure, endRestDos, endRestEigen,
    blockMid, blockExit, blockTrace, updStates, updState, blockStructure, blockIonicStep,
    List.getLast?_concat,
    String.reduceEq, reduceIte, reduceCtorEq,
    not_true, not_false_iff, true_and, and_true, false_and, and_false, or_false, false_or,
    true_or, or_true, eq_self_iff_true, if_true, if_false, Bool.true_eq_false,
    Bool.false_eq_true, decide_True, decide_False, decide_eq_true_eq]

/-- One full calculation section maps a boundary state to the boundary
state with one snapshot and one IonicStep appended. -/
theorem vaspCalcBlock_run (st : VState) (σ : String → SVal) :
    runEventsFrom (blockEntry st σ) vaspCalcBlock = .ok (blockExit st σ) := by
  rw [vaspCalcBlock_split, runEventsFrom_append, blockPre_run]
  simp only [runEventsFrom, stepEvent, blockEnd_run]

/-- The state a section leaves behind is again a section-boundary
state (with its own `state` mapping). -/
theorem blockExit_entry (st : VState) (σ : String → SVal) :
    blockExit st σ = blockEntry (blockExit st σ) ((blockExit st σ).state) := rfl

/-- Running `n` calculation sections from any boundary state appends
exactly `n` copies of the section's snapshot and ionic step. -/
theorem calcBlocks_run : ∀ (n : Nat) (st : VState) (σ : String → SVal),
    ∃ st', runEventsFrom (blockEntry st σ) (calcBlocks n) = .ok st' ∧
      st'.structures = st.structures ++ List.replicate n blockStructure ∧
      st'.ionic_steps = st.ionic_steps ++ List.replicate n blockIonicStep := by
  intro n
  induction n with
  | zero =>
    intro st σ
    exact ⟨blockEntry st σ, rfl, by simp [blockEntry], by simp [blockEntry]⟩
  | succ n ih =>
    intro st σ
    obtain ⟨st', hrun, hs, hi⟩ := ih (blockExit st σ) ((blockExit st σ).state)
    refine ⟨st', ?_, ?_, ?_⟩
    · show runEventsFrom (blockEntry st σ) (vaspCalcBlock ++ calcBlocks n) = .ok st'
      rw [runEventsFrom_append, vaspCalcBlock_run]
      exact hrun
    · rw [hs]
      show (blockExit st σ).structures ++ _ = _
      simp [blockExit, blockMid, List.replicate_succ]
    · rw [hi]
      show (blockExit st σ).ionic_steps ++ _ = _
      simp [blockExit, blockMid, List.replicate_succ]

set_option maxRecDepth 100000 in
/-- Consuming the input preamble from the initial handler state leaves
exactly the recorded post-input state. -/
theorem preamble_run : runEventsFrom (initialState []) vaspPreamble = .ok preState := rfl

/-- The post-input state is a section-boundary state. -/
theorem preState_entry : preState = blockEntry preState preState.state := rfl

/-- `countEnds` distributes over stream concatenation. -/
theorem countEnds_append (t : String) (a b : List XEvent) :
    countEnds t (a ++ b) = countEnds t a + countEnds t b := by
  simp [countEnds, List.filter_append]

/-- `calcBlocks n` closes exactly `n` calculation sections. -/
theorem countEnds_calcBlocks : ∀ n, countEnds "calculation" (calcBlocks n) = n := by
  intro n
  induction n with
  | zero => rfl
  | succ n ih =>
    show countEnds "calculation" (vaspCalcBlock ++ calcBlocks n) = n + 1
    rw [countEnds_append, ih]
    have h1 : countEnds "calculation" vaspCalcBlock = 1 := rfl
    rw [h1, Nat.add_comm]

/-- C7: on every synthetic well-formed stream the parse succeeds and
the number of StructureSnapshots recorded in the final state equals at
once the number of `calculation` closes consumed (vaspio.py:963-965)
and the number of structure-section closes that appended a snapshot
(vaspio.py:966-976): one snapshot per calculation section. -/
theorem C7_structures_eq_calculations (n : Nat) :
    ((runEvents [] (mkStream n)).toOption.map (fun st => st.structures.length)) =
      some (countEnds "calculation" (mkStream n)) := by
  obtain ⟨st', hrun, hs, hi⟩ := calcBlocks_run n preState preState.state
  have hrun' : runEventsFrom preState (calcBlocks n) = .ok st' := hrun
  have hfull : runEvents [] (mkStream n) = .ok st' := by
    rw [runEvents, mkStream, runEventsFrom_append, preamble_run]
    exact hrun'
  have hcnt : countEnds "calculation" (mkStream n) = n := by
    rw [mkStream, countEnds_append, countEnds_calcBlocks]
    have h0 : countEnds "calculation" vaspPreamble = 0 := rfl
    rw [h0, Nat.zero_add]
  rw [hfull, hcnt]
  simp only [Except.toOption, Option.map_some']
  congr 1
  rw [hs]
  have hpre : preState.structures = [] := rfl
  rw [hpre, List.nil_append, List.length_replicate]
